/-
  Formal model of the gofutura Modbus register gateway (main.go and the
  register-map source file).

  Shallow-embedding conventions:
  * Go `uint16` register values and addresses are ℕ; arithmetic the source
    performs in 16-bit variables carries an explicit `% 65536`.
  * Go `float64` quantities are modelled as exact rationals ℚ; the claims
    under study concern sign/scale/range logic, not IEEE-754 rounding.
    The float literal `0.1` is modelled as `1/10`.
  * Go's float→integer conversion truncates toward zero (`truncQ`); a
    conversion into a 16-bit type keeps the low 16 bits of the two's
    complement form (gc behaviour), modelled by `u16OfInt`.
  * A Go `map[uint16]uint16` is a function `ℕ → Option ℕ`; an indexed read
    `m[addr]` yields the zero value on a missing key (`mget`).
  * Bitwise `>> 16`, `& 0xFFFF` and `(hi << 16) | lo` on register words are
    rendered arithmetically as `/ 65536`, `% 65536` and `hi * 65536 + lo`,
    which agree on 16-bit operands.
-/
import Mathlib

namespace Gofutura

/-- A raw register map: address → raw 16-bit value; absent keys are distinct from zero. -/
abbrev RawMap := ℕ → Option ℕ

def emptyRaw : RawMap := fun _ => none

/-- Go map assignment `m[a] = v`. -/
def rawInsert (m : RawMap) (a v : ℕ) : RawMap := fun x => if x = a then some v else m x

/-- Go indexed map read `m[a]`: yields the zero value when the key is absent. -/
def mget (m : RawMap) (a : ℕ) : ℕ := (m a).getD 0

/-- Go conversion `int16(w)` of a 16-bit word: two's-complement reinterpretation. -/
def i16 (w : ℕ) : ℤ := if w < 32768 then (w : ℤ) else (w : ℤ) - 65536

/-- Go conversion `uint16(int16(z))` (also `uint16(z)`) of an integer:
    keep the low 16 bits of the two's-complement form. -/
def u16OfInt (z : ℤ) : ℕ := (z % 65536).toNat

/-- Go float→integer conversion: truncation toward zero. -/
def truncQ (q : ℚ) : ℤ := if 0 ≤ q then ⌊q⌋ else ⌈q⌉

/-- Source helper `u16`: `return m[addr]`. -/
def u16 (m : RawMap) (addr : ℕ) : ℕ := mget m addr

/-- Source helper `u32`: `(uint32(m[addr]) << 16) | uint32(m[addr+1])`. -/
def u32 (m : RawMap) (addr : ℕ) : ℕ := mget m addr * 65536 + mget m (addr + 1)

/-- Source helper `i16f`: `float64(int16(m[addr])) * scale`. -/
def i16f (m : RawMap) (addr : ℕ) (scale : ℚ) : ℚ := (i16 (mget m addr) : ℚ) * scale

/-- Source helper `u16f`: `float64(m[addr]) * scale`. -/
def u16f (m : RawMap) (addr : ℕ) (scale : ℚ) : ℚ := (mget m addr : ℚ) * scale

/-- Source helper `splitU32`: `uint16(v >> 16), uint16(v & 0xFFFF)`. -/
def splitU32 (v : ℕ) : ℕ × ℕ := (v / 65536 % 65536, v % 65536)

/-! Holding-register address constants (source block `AddrHolding...`). -/

@[simp] def AddrHoldingFuncVentilation : ℕ := 0

@[simp] def AddrHoldingFuncBoostTm : ℕ := 1

@[simp] def AddrHoldingFuncCirculationTm : ℕ := 2

@[simp] def AddrHoldingFuncOverpressureTm : ℕ := 3

@[simp] def AddrHoldingFuncNightTm : ℕ := 4

@[simp] def AddrHoldingFuncPartyTm : ℕ := 5

@[simp] def AddrHoldingFuncAwayBegin : ℕ := 6

@[simp] def AddrHoldingFuncAwayEnd : ℕ := 8

@[simp] def AddrHoldingCfgTempSet : ℕ := 10

@[simp] def AddrHoldingCfgHumiSet : ℕ := 11

@[simp] def AddrHoldingFuncTimeProg : ℕ := 12

@[simp] def AddrHoldingFuncAntiradon : ℕ := 13

@[simp] def AddrHoldingCfgBypassEnable : ℕ := 14

@[simp] def AddrHoldingCfgHeatingEnable : ℕ := 15

@[simp] def AddrHoldingCfgCoolingEnable : ℕ := 16

@[simp] def AddrHoldingCfgComfortEnable : ℕ := 17

@[simp] def AddrHoldingVzvCBPriorityControl : ℕ := 20

@[simp] def AddrHoldingVzvKitchenhoodNormallyOpen : ℕ := 21

@[simp] def AddrHoldingVzvBoostVolumePerRun : ℕ := 22

@[simp] def AddrHoldingVzvKitchenhoodNormallyOpenVolume : ℕ := 23

@[simp] def AddrHoldingUITempCorrBase : ℕ := 100

@[simp] def HoldingUIInstances : ℕ := 3

@[simp] def AddrHoldingExtSensTempCorrBase : ℕ := 115

@[simp] def HoldingExtSensInstances : ℕ := 8

@[simp] def AddrHoldingAlfaTempCorrBase : ℕ := 160

@[simp] def AddrHoldingAlfaNTCTempCorrBase : ℕ := 162

@[simp] def AddrHoldingExtBtnBase : ℕ := 400

@[simp] def HoldingExtBtnInstances : ℕ := 8

@[simp] def AddrHoldingAccessCode : ℕ := 900

@[simp] def AddrHoldingUserPassword : ℕ := 920

@[simp] def AddrHoldingPasswordTimeout : ℕ := 922

/-! Input-register address constants (source block `Addr...`). -/

@[simp] def AddrFactDeviceID : ℕ := 0

@[simp] def AddrFactSerialNum : ℕ := 1

@[simp] def AddrFactEthernetMAC : ℕ := 3

@[simp] def AddrFactHWRevision : ℕ := 6

@[simp] def AddrFirmRevision : ℕ := 8

@[simp] def AddrSysBuildNumber : ℕ := 10

@[simp] def AddrSysRegmapVersion : ℕ := 12

@[simp] def AddrSysOptions : ℕ := 14

@[simp] def AddrFutConfig : ℕ := 15

@[simp] def AddrFutMode : ℕ := 16

@[simp] def AddrFutError : ℕ := 18

@[simp] def AddrFutWarning : ℕ := 20

@[simp] def AddrFutTempAmbient : ℕ := 30

@[simp] def AddrFutTempFresh : ℕ := 31

@[simp] def AddrFutTempIndoor : ℕ := 32

@[simp] def AddrFutTempWaste : ℕ := 33

@[simp] def AddrFutHumiAmbient : ℕ := 34

@[simp] def AddrFutHumiFresh : ℕ := 35

@[simp] def AddrFutHumiIndoor : ℕ := 36

@[simp] def AddrFutHumiWaste : ℕ := 37

@[simp] def AddrFutTOut : ℕ := 38

@[simp] def AddrFutFilterWear : ℕ := 40

@[simp] def AddrPowerConsumption : ℕ := 41

@[simp] def AddrHeatRecovering : ℕ := 42

@[simp] def AddrHeatingPower : ℕ := 43

@[simp] def AddrAirFlow : ℕ := 44

@[simp] def AddrFanPWMSupply : ℕ := 45

@[simp] def AddrFanPWMExhaust : ℕ := 46

@[simp] def AddrFanRPMSupply : ℕ := 47

@[simp] def AddrFanRPMExhaust : ℕ := 48

@[simp] def AddrUin1Voltage : ℕ := 49

@[simp] def AddrUin2Voltage : ℕ := 50

@[simp] def AddrDigInputs : ℕ := 51

@[simp] def AddrSysBatteryVoltage : ℕ := 52

@[simp] def AddrMBDevStatReads : ℕ := 60

@[simp] def AddrMBDevStatWrites : ℕ := 62

@[simp] def AddrMBDevStatFails : ℕ := 64

@[simp] def AddrMBDevConnectedMkUI : ℕ := 66

@[simp] def AddrMBDevConnectedMkSens : ℕ := 67

@[simp] def AddrMBDevConnectedCoolBreeze : ℕ := 69

@[simp] def AddrMBDevConnectedValveSupply : ℕ := 70

@[simp] def AddrMBDevConnectedValveExhaust : ℕ := 72

@[simp] def AddrMBDevConnectedButton : ℕ := 74

@[simp] def AddrMBDevConnectedAlfa : ℕ := 75

@[simp] def AddrVzvIdentify : ℕ := 80

@[simp] def AddrUIBase : ℕ := 100

@[simp] def UIInstances : ℕ := 3

@[simp] def AddrSensBase : ℕ := 115

@[simp] def SensInstances : ℕ := 8

@[simp] def AddrAlfaBase : ℕ := 160

@[simp] def AlfaInstances : ℕ := 8

@[simp] def AddrExtSensBase : ℕ := 300

@[simp] def ExtSensInstances : ℕ := 8

/-- Source struct `HoldingRegs`: Go `uint16`/`uint32` fields are ℕ,
    `float64` fields are ℚ, fixed arrays are functions from `Fin n`. -/
structure HoldingRegs where
  FuncVentilation : ℕ
  FuncBoostTm : ℕ
  FuncCirculationTm : ℕ
  FuncOverpressureTm : ℕ
  FuncNightTm : ℕ
  FuncPartyTm : ℕ
  FuncAwayBegin : ℕ
  FuncAwayEnd : ℕ
  CfgTempSet : ℚ
  CfgHumiSet : ℚ
  FuncTimeProg : ℕ
  FuncAntiradon : ℕ
  CfgBypassEnable : ℕ
  CfgHeatingEnable : ℕ
  CfgCoolingEnable : ℕ
  CfgComfortEnable : ℕ
  VzvCBPriorityControl : ℕ
  VzvKitchenhoodNormallyOpen : ℕ
  VzvBoostVolumePerRun : ℕ
  VzvKitchenhoodNormallyOpenVolume : ℕ
  UITempCorr : Fin 3 → ℚ
  ExtSensTempCorr : Fin 8 → ℚ
  AlfaTempCorr : Fin 8 → ℚ
  AlfaNTCTempCorr : Fin 8 → ℚ
  ExtBtnPresent : Fin 8 → ℕ
  ExtBtnMode : Fin 8 → ℕ
  ExtBtnTm : Fin 8 → ℕ
  ExtBtnActive : Fin 8 → ℕ
  AccessCode : ℕ
  UserPassword : ℕ
  PasswordTimeout : ℕ

/-- Source `DecodeHoldingMap`: constructs `HoldingRegs` from a `map[address]value`.
    The per-index loops of the source become functions of the index. -/
def DecodeHoldingMap (m : RawMap) : HoldingRegs where
  FuncVentilation := u16 m AddrHoldingFuncVentilation
  FuncBoostTm := u16 m AddrHoldingFuncBoostTm
  FuncCirculationTm := u16 m AddrHoldingFuncCirculationTm
  FuncOverpressureTm := u16 m AddrHoldingFuncOverpressureTm
  FuncNightTm := u16 m AddrHoldingFuncNightTm
  FuncPartyTm := u16 m AddrHoldingFuncPartyTm
  FuncAwayBegin := u32 m AddrHoldingFuncAwayBegin
  FuncAwayEnd := u32 m AddrHoldingFuncAwayEnd
  CfgTempSet := i16f m AddrHoldingCfgTempSet (1/10)
  CfgHumiSet := u16f m AddrHoldingCfgHumiSet (1/10)
  FuncTimeProg := u16 m AddrHoldingFuncTimeProg
  FuncAntiradon := u16 m AddrHoldingFuncAntiradon
  CfgBypassEnable := u16 m AddrHoldingCfgBypassEnable
  CfgHeatingEnable := u16 m AddrHoldingCfgHeatingEnable
  CfgCoolingEnable := u16 m AddrHoldingCfgCoolingEnable
  CfgComfortEnable := u16 m AddrHoldingCfgComfortEnable
  VzvCBPriorityControl := u16 m AddrHoldingVzvCBPriorityControl
  VzvKitchenhoodNormallyOpen := u16 m AddrHoldingVzvKitchenhoodNormallyOpen
  VzvBoostVolumePerRun := u16 m AddrHoldingVzvBoostVolumePerRun
  VzvKitchenhoodNormallyOpenVolume := u16 m AddrHoldingVzvKitchenhoodNormallyOpenVolume
  UITempCorr := fun i => i16f m (AddrHoldingUITempCorrBase + (i : ℕ) * 5) (1/10)
  ExtSensTempCorr := fun i => i16f m (AddrHoldingExtSensTempCorrBase + (i : ℕ) * 5) (1/10)
  AlfaTempCorr := fun i => i16f m (AddrHoldingAlfaTempCorrBase + (i : ℕ) * 5) (1/10)
  AlfaNTCTempCorr := fun i => i16f m (AddrHoldingAlfaNTCTempCorrBase + (i : ℕ) * 5) (1/10)
  ExtBtnPresent := fun i => u16 m (AddrHoldingExtBtnBase + (i : ℕ) * 10)
  ExtBtnMode := fun i => u16 m (AddrHoldingExtBtnBase + (i : ℕ) * 10 + 1)
  ExtBtnTm := fun i => u16 m (AddrHoldingExtBtnBase + (i : ℕ) * 10 + 2)
  ExtBtnActive := fun i => u16 m (AddrHoldingExtBtnBase + (i : ℕ) * 10 + 3)
  AccessCode := u16 m AddrHoldingAccessCode
  UserPassword := u16 m AddrHoldingUserPassword
  PasswordTimeout := u16 m AddrHoldingPasswordTimeout

/-- Scaled-field encoding `uint16(int16(x / 0.1))` (and `uint16(x / 0.1)`):
    divide by the scale, truncate toward zero, keep the low 16 bits. -/
def encScaled (x : ℚ) : ℕ := u16OfInt (truncQ (x / (1/10)))

/-- Source `EncodeHoldingRegs`: converts `HoldingRegs` back to a
    `map[uint16]uint16` for writing; the source's fixed-bound loops over
    array fields are unrolled. No range validation is performed anywhere. -/
def EncodeHoldingRegs (r : HoldingRegs) : RawMap :=
  let m := emptyRaw
  let m := rawInsert m AddrHoldingFuncVentilation r.FuncVentilation
  let m := rawInsert m AddrHoldingFuncBoostTm r.FuncBoostTm
  let m := rawInsert m AddrHoldingFuncCirculationTm r.FuncCirculationTm
  let m := rawInsert m AddrHoldingFuncOverpressureTm r.FuncOverpressureTm
  let m := rawInsert m AddrHoldingFuncNightTm r.FuncNightTm
  let m := rawInsert m AddrHoldingFuncPartyTm r.FuncPartyTm
  let m := rawInsert m AddrHoldingFuncAwayBegin (splitU32 r.FuncAwayBegin).1
  let m := rawInsert m (AddrHoldingFuncAwayBegin + 1) (splitU32 r.FuncAwayBegin).2
  let m := rawInsert m AddrHoldingFuncAwayEnd (splitU32 r.FuncAwayEnd).1
  let m := rawInsert m (AddrHoldingFuncAwayEnd + 1) (splitU32 r.FuncAwayEnd).2
  let m := rawInsert m AddrHoldingCfgTempSet (encScaled r.CfgTempSet)
  let m := rawInsert m AddrHoldingCfgHumiSet (encScaled r.CfgHumiSet)
  let m := rawInsert m AddrHoldingFuncTimeProg r.FuncTimeProg
  let m := rawInsert m AddrHoldingFuncAntiradon r.FuncAntiradon
  let m := rawInsert m AddrHoldingCfgBypassEnable r.CfgBypassEnable
  let m := rawInsert m AddrHoldingCfgHeatingEnable r.CfgHeatingEnable
  let m := rawInsert m AddrHoldingCfgCoolingEnable r.CfgCoolingEnable
  let m := rawInsert m AddrHoldingCfgComfortEnable r.CfgComfortEnable
  let m := rawInsert m AddrHoldingVzvCBPriorityControl r.VzvCBPriorityControl
  let m := rawInsert m AddrHoldingVzvKitchenhoodNormallyOpen r.VzvKitchenhoodNormallyOpen
  let m := rawInsert m AddrHoldingVzvBoostVolumePerRun r.VzvBoostVolumePerRun
  let m := rawInsert m AddrHoldingVzvKitchenhoodNormallyOpenVolume r.VzvKitchenhoodNormallyOpenVolume
  let m := rawInsert m (AddrHoldingUITempCorrBase + 0 * 5) (encScaled (r.UITempCorr 0))
  let m := rawInsert m (AddrHoldingUITempCorrBase + 1 * 5) (encScaled (r.UITempCorr 1))
  let m := rawInsert m (AddrHoldingUITempCorrBase + 2 * 5) (encScaled (r.UITempCorr 2))
  let m := rawInsert m (AddrHoldingExtSensTempCorrBase + 0 * 5) (encScaled (r.ExtSensTempCorr 0))
  let m := rawInsert m (AddrHoldingExtSensTempCorrBase + 1 * 5) (encScaled (r.ExtSensTempCorr 1))
  let m := rawInsert m (AddrHoldingExtSensTempCorrBase + 2 * 5) (encScaled (r.ExtSensTempCorr 2))
  let m := rawInsert m (AddrHoldingExtSensTempCorrBase + 3 * 5) (encScaled (r.ExtSensTempCorr 3))
  let m := rawInsert m (AddrHoldingExtSensTempCorrBase + 4 * 5) (encScaled (r.ExtSensTempCorr 4))
  let m := rawInsert m (AddrHoldingExtSensTempCorrBase + 5 * 5) (encScaled (r.ExtSensTempCorr 5))
  let m := rawInsert m (AddrHoldingExtSensTempCorrBase + 6 * 5) (encScaled (r.ExtSensTempCorr 6))
  let m := rawInsert m (AddrHoldingExtSensTempCorrBase + 7 * 5) (encScaled (r.ExtSensTempCorr 7))
  let m := rawInsert m (AddrHoldingAlfaTempCorrBase + 0 * 5) (encScaled (r.AlfaTempCorr 0))
  let m := rawInsert m (AddrHoldingAlfaNTCTempCorrBase + 0 * 5) (encScaled (r.AlfaNTCTempCorr 0))
  let m := rawInsert m (AddrHoldingAlfaTempCorrBase + 1 * 5) (encScaled (r.AlfaTempCorr 1))
  let m := rawInsert m (AddrHoldingAlfaNTCTempCorrBase + 1 * 5) (encScaled (r.AlfaNTCTempCorr 1))
  let m := rawInsert m (AddrHoldingAlfaTempCorrBase + 2 * 5) (encScaled (r.AlfaTempCorr 2))
  let m := rawInsert m (AddrHoldingAlfaNTCTempCorrBase + 2 * 5) (encScaled (r.AlfaNTCTempCorr 2))
  let m := rawInsert m (AddrHoldingAlfaTempCorrBase + 3 * 5) (encScaled (r.AlfaTempCorr 3))
  let m := rawInsert m (AddrHoldingAlfaNTCTempCorrBase + 3 * 5) (encScaled (r.AlfaNTCTempCorr 3))
  let m := rawInsert m (AddrHoldingAlfaTempCorrBase + 4 * 5) (encScaled (r.AlfaTempCorr 4))
  let m := rawInsert m (AddrHoldingAlfaNTCTempCorrBase + 4 * 5) (encScaled (r.AlfaNTCTempCorr 4))
  let m := rawInsert m (AddrHoldingAlfaTempCorrBase + 5 * 5) (encScaled (r.AlfaTempCorr 5))
  let m := rawInsert m (AddrHoldingAlfaNTCTempCorrBase + 5 * 5) (encScaled (r.AlfaNTCTempCorr 5))
  let m := rawInsert m (AddrHoldingAlfaTempCorrBase + 6 * 5) (encScaled (r.AlfaTempCorr 6))
  let m := rawInsert m (AddrHoldingAlfaNTCTempCorrBase + 6 * 5) (encScaled (r.AlfaNTCTempCorr 6))
  let m := rawInsert m (AddrHoldingAlfaTempCorrBase + 7 * 5) (encScaled (r.AlfaTempCorr 7))
  let m := rawInsert m (AddrHoldingAlfaNTCTempCorrBase + 7 * 5) (encScaled (r.AlfaNTCTempCorr 7))
  let m := rawInsert m (AddrHoldingExtBtnBase + 0 * 10) (r.ExtBtnPresent 0)
  let m := rawInsert m (AddrHoldingExtBtnBase + 0 * 10 + 1) (r.ExtBtnMode 0)
  let m := rawInsert m (AddrHoldingExtBtnBase + 0 * 10 + 2) (r.ExtBtnTm 0)
  let m := rawInsert m (AddrHoldingExtBtnBase + 0 * 10 + 3) (r.ExtBtnActive 0)
  let m := rawInsert m (AddrHoldingExtBtnBase + 1 * 10) (r.ExtBtnPresent 1)
  let m := rawInsert m (AddrHoldingExtBtnBase + 1 * 10 + 1) (r.ExtBtnMode 1)
  let m := rawInsert m (AddrHoldingExtBtnBase + 1 * 10 + 2) (r.ExtBtnTm 1)
  let m := rawInsert m (AddrHoldingExtBtnBase + 1 * 10 + 3) (r.ExtBtnActive 1)
  let m := rawInsert m (AddrHoldingExtBtnBase + 2 * 10) (r.ExtBtnPresent 2)
  let m := rawInsert m (AddrHoldingExtBtnBase + 2 * 10 + 1) (r.ExtBtnMode 2)
  let m := rawInsert m (AddrHoldingExtBtnBase + 2 * 10 + 2) (r.ExtBtnTm 2)
  let m := rawInsert m (AddrHoldingExtBtnBase + 2 * 10 + 3) (r.ExtBtnActive 2)
  let m := rawInsert m (AddrHoldingExtBtnBase + 3 * 10) (r.ExtBtnPresent 3)
  let m := rawInsert m (AddrHoldingExtBtnBase + 3 * 10 + 1) (r.ExtBtnMode 3)
  let m := rawInsert m (AddrHoldingExtBtnBase + 3 * 10 + 2) (r.ExtBtnTm 3)
  let m := rawInsert m (AddrHoldingExtBtnBase + 3 * 10 + 3) (r.ExtBtnActive 3)
  let m := rawInsert m (AddrHoldingExtBtnBase + 4 * 10) (r.ExtBtnPresent 4)
  let m := rawInsert m (AddrHoldingExtBtnBase + 4 * 10 + 1) (r.ExtBtnMode 4)
  let m := rawInsert m (AddrHoldingExtBtnBase + 4 * 10 + 2) (r.ExtBtnTm 4)
  let m := rawInsert m (AddrHoldingExtBtnBase + 4 * 10 + 3) (r.ExtBtnActive 4)
  let m := rawInsert m (AddrHoldingExtBtnBase + 5 * 10) (r.ExtBtnPresent 5)
  let m := rawInsert m (AddrHoldingExtBtnBase + 5 * 10 + 1) (r.ExtBtnMode 5)
  let m := rawInsert m (AddrHoldingExtBtnBase + 5 * 10 + 2) (r.ExtBtnTm 5)
  let m := rawInsert m (AddrHoldingExtBtnBase + 5 * 10 + 3) (r.ExtBtnActive 5)
  let m := rawInsert m (AddrHoldingExtBtnBase + 6 * 10) (r.ExtBtnPresent 6)
  let m := rawInsert m (AddrHoldingExtBtnBase + 6 * 10 + 1) (r.ExtBtnMode 6)
  let m := rawInsert m (AddrHoldingExtBtnBase + 6 * 10 + 2) (r.ExtBtnTm 6)
  let m := rawInsert m (AddrHoldingExtBtnBase + 6 * 10 + 3) (r.ExtBtnActive 6)
  let m := rawInsert m (AddrHoldingExtBtnBase + 7 * 10) (r.ExtBtnPresent 7)
  let m := rawInsert m (AddrHoldingExtBtnBase + 7 * 10 + 1) (r.ExtBtnMode 7)
  let m := rawInsert m (AddrHoldingExtBtnBase + 7 * 10 + 2) (r.ExtBtnTm 7)
  let m := rawInsert m (AddrHoldingExtBtnBase + 7 * 10 + 3) (r.ExtBtnActive 7)
  let m := rawInsert m AddrHoldingAccessCode r.AccessCode
  let m := rawInsert m AddrHoldingUserPassword r.UserPassword
  let m := rawInsert m AddrHoldingPasswordTimeout r.PasswordTimeout
  m

/-- Source struct `WriteFieldSpec`: addr, scale, register count of a writable field. -/
structure WriteFieldSpec where
  Addr : ℕ
  Scale : ℚ
  RegCount : ℕ
  deriving DecidableEq

set_option maxHeartbeats 1600000

/-- Source map `WriteableFields`: fields that may be written via
    single-register writes, as an association list in source order
    (a Go map; lookup is by key, order irrelevant). -/
def WriteableFields : List (String × WriteFieldSpec) := [
  ("FuncVentilation", ⟨AddrHoldingFuncVentilation, 1, 1⟩),
  ("FuncBoostTm", ⟨AddrHoldingFuncBoostTm, 1, 1⟩),
  ("FuncCirculationTm", ⟨AddrHoldingFuncCirculationTm, 1, 1⟩),
  ("FuncOverpressureTm", ⟨AddrHoldingFuncOverpressureTm, 1, 1⟩),
  ("FuncNightTm", ⟨AddrHoldingFuncNightTm, 1, 1⟩),
  ("FuncPartyTm", ⟨AddrHoldingFuncPartyTm, 1, 1⟩),
  ("CfgTempSet", ⟨AddrHoldingCfgTempSet, 1/10, 1⟩),
  ("CfgHumiSet", ⟨AddrHoldingCfgHumiSet, 1/10, 1⟩),
  ("FuncTimeProg", ⟨AddrHoldingFuncTimeProg, 1, 1⟩),
  ("FuncAntiradon", ⟨AddrHoldingFuncAntiradon, 1, 1⟩),
  ("CfgBypassEnable", ⟨AddrHoldingCfgBypassEnable, 1, 1⟩),
  ("CfgHeatingEnable", ⟨AddrHoldingCfgHeatingEnable, 1, 1⟩),
  ("CfgCoolingEnable", ⟨AddrHoldingCfgCoolingEnable, 1, 1⟩),
  ("CfgComfortEnable", ⟨AddrHoldingCfgComfortEnable, 1, 1⟩),
  ("VzvCBPriorityControl", ⟨AddrHoldingVzvCBPriorityControl, 1, 1⟩),
  ("VzvKitchenhoodNormallyOpen", ⟨AddrHoldingVzvKitchenhoodNormallyOpen, 1, 1⟩),
  ("VzvBoostVolumePerRun", ⟨AddrHoldingVzvBoostVolumePerRun, 1, 1⟩),
  ("VzvKitchenhoodNormallyOpenVolume", ⟨AddrHoldingVzvKitchenhoodNormallyOpenVolume, 1, 1⟩),
  ("ExtSensTempCorr1", ⟨AddrHoldingExtSensTempCorrBase + 0, 1/10, 1⟩),
  ("ExtSensTempCorr2", ⟨AddrHoldingExtSensTempCorrBase + 5, 1/10, 1⟩),
  ("ExtSensTempCorr3", ⟨AddrHoldingExtSensTempCorrBase + 10, 1/10, 1⟩),
  ("ExtSensTempCorr4", ⟨AddrHoldingExtSensTempCorrBase + 15, 1/10, 1⟩),
  ("ExtSensTempCorr5", ⟨AddrHoldingExtSensTempCorrBase + 20, 1/10, 1⟩),
  ("ExtSensTempCorr6", ⟨AddrHoldingExtSensTempCorrBase + 25, 1/10, 1⟩),
  ("ExtSensTempCorr7", ⟨AddrHoldingExtSensTempCorrBase + 30, 1/10, 1⟩),
  ("ExtSensTempCorr8", ⟨AddrHoldingExtSensTempCorrBase + 35, 1/10, 1⟩),
  ("ExtSensPresent1", ⟨AddrExtSensBase + 0, 1, 1⟩),
  ("ExtSensInvalidate1", ⟨AddrExtSensBase + 1, 1, 1⟩),
  ("ExtSensPresent2", ⟨AddrExtSensBase + 10, 1, 1⟩),
  ("ExtSensInvalidate2", ⟨AddrExtSensBase + 11, 1, 1⟩),
  ("ExtSensPresent3", ⟨AddrExtSensBase + 20, 1, 1⟩),
  ("ExtSensInvalidate3", ⟨AddrExtSensBase + 21, 1, 1⟩),
  ("ExtSensPresent4", ⟨AddrExtSensBase + 30, 1, 1⟩),
  ("ExtSensInvalidate4", ⟨AddrExtSensBase + 31, 1, 1⟩),
  ("ExtSensPresent5", ⟨AddrExtSensBase + 40, 1, 1⟩),
  ("ExtSensInvalidate5", ⟨AddrExtSensBase + 41, 1, 1⟩),
  ("ExtSensPresent6", ⟨AddrExtSensBase + 50, 1, 1⟩),
  ("ExtSensInvalidate6", ⟨AddrExtSensBase + 51, 1, 1⟩),
  ("ExtSensPresent7", ⟨AddrExtSensBase + 60, 1, 1⟩),
  ("ExtSensInvalidate7", ⟨AddrExtSensBase + 61, 1, 1⟩),
  ("ExtSensPresent8", ⟨AddrExtSensBase + 70, 1, 1⟩),
  ("ExtSensInvalidate8", ⟨AddrExtSensBase + 71, 1, 1⟩),
  ("ExtSensTemp1", ⟨AddrExtSensBase + 2, 1/10, 1⟩),
  ("ExtSensRH1", ⟨AddrExtSensBase + 3, 1, 1⟩),
  ("ExtSensCo21", ⟨AddrExtSensBase + 4, 1, 1⟩),
  ("ExtSensTFloor1", ⟨AddrExtSensBase + 5, 1/10, 1⟩),
  ("ExtSensTemp2", ⟨AddrExtSensBase + 12, 1/10, 1⟩),
  ("ExtSensRH2", ⟨AddrExtSensBase + 13, 1, 1⟩),
  ("ExtSensCo22", ⟨AddrExtSensBase + 14, 1, 1⟩),
  ("ExtSensTFloor2", ⟨AddrExtSensBase + 15, 1/10, 1⟩),
  ("ExtSensTemp3", ⟨AddrExtSensBase + 22, 1/10, 1⟩),
  ("ExtSensRH3", ⟨AddrExtSensBase + 23, 1, 1⟩),
  ("ExtSensCo23", ⟨AddrExtSensBase + 24, 1, 1⟩),
  ("ExtSensTFloor3", ⟨AddrExtSensBase + 25, 1/10, 1⟩),
  ("ExtSensTemp4", ⟨AddrExtSensBase + 32, 1/10, 1⟩),
  ("ExtSensRH4", ⟨AddrExtSensBase + 33, 1, 1⟩),
  ("ExtSensCo24", ⟨AddrExtSensBase + 34, 1, 1⟩),
  ("ExtSensTFloor4", ⟨AddrExtSensBase + 35, 1/10, 1⟩),
  ("ExtSensTemp5", ⟨AddrExtSensBase + 42, 1/10, 1⟩),
  ("ExtSensRH5", ⟨AddrExtSensBase + 43, 1, 1⟩),
  ("ExtSensCo25", ⟨AddrExtSensBase + 44, 1, 1⟩),
  ("ExtSensTFloor5", ⟨AddrExtSensBase + 45, 1/10, 1⟩),
  ("ExtSensTemp6", ⟨AddrExtSensBase + 52, 1/10, 1⟩),
  ("ExtSensRH6", ⟨AddrExtSensBase + 53, 1, 1⟩),
  ("ExtSensCo26", ⟨AddrExtSensBase + 54, 1, 1⟩),
  ("ExtSensTFloor6", ⟨AddrExtSensBase + 55, 1/10, 1⟩),
  ("ExtSensTemp7", ⟨AddrExtSensBase + 62, 1/10, 1⟩),
  ("ExtSensRH7", ⟨AddrExtSensBase + 63, 1, 1⟩),
  ("ExtSensCo27", ⟨AddrExtSensBase + 64, 1, 1⟩),
  ("ExtSensTFloor7", ⟨AddrExtSensBase + 65, 1/10, 1⟩),
  ("ExtSensTemp8", ⟨AddrExtSensBase + 72, 1/10, 1⟩),
  ("ExtSensRH8", ⟨AddrExtSensBase + 73, 1, 1⟩),
  ("ExtSensCo28", ⟨AddrExtSensBase + 74, 1, 1⟩),
  ("ExtSensTFloor8", ⟨AddrExtSensBase + 75, 1/10, 1⟩)]

/-- Go map lookup `WriteableFields[name]`. -/
def lookupWriteable (name : String) : Option WriteFieldSpec :=
  (WriteableFields.find? (fun p => p.1 == name)).map (fun p => p.2)

/-- Error taxonomy of the single-field write path (`fmt.Errorf` sites in
    `WriteSingleRegister`), named after the spec's taxonomy. -/
inductive WriteError where
  | unknownOrNotWritable
  | multiRegister
  | invalidScale
  | outOfRange
  | writeFailed (addr : ℕ)
  deriving DecidableEq

/-- Source `WriteSingleRegister`: validates and encodes one named field.
    `wdev addr val` models the success of the underlying
    `client.WriteRegister` protocol primitive. The second component lists
    the protocol writes actually issued. -/
def WriteSingleRegister (wdev : ℕ → ℕ → Bool) (name : String) (value : ℚ) :
    Except WriteError Unit × List (ℕ × ℕ) :=
  match lookupWriteable name with
  | none => (.error .unknownOrNotWritable, [])
  | some spec =>
    if spec.RegCount ≠ 1 then (.error .multiRegister, [])
    else if spec.Scale = 0 then (.error .invalidScale, [])
    else
      -- scaled := int64(value / spec.Scale): truncation toward zero
      let scaled := truncQ (value / spec.Scale)
      -- if scaled < -0x8000 || scaled > 0xFFFF: out of range
      if scaled < -32768 ∨ 65535 < scaled then (.error .outOfRange, [])
      else
        -- encoded = uint16(int16(scaled))
        let encoded := u16OfInt scaled
        if wdev spec.Addr encoded then (.ok (), [(spec.Addr, encoded)])
        else (.error (.writeFailed spec.Addr), [(spec.Addr, encoded)])

/-- Rounding to nearest, modelled from the spec:
    the spec's §4.4 step 2 reads `scaled = round(value / scale)`. -/
def specRound (q : ℚ) : ℤ := ⌊q + 1/2⌋

/-- An all-zero holding record (Go zero value `HoldingRegs{}`). -/
def zeroHolding : HoldingRegs :=
  ⟨0, 0, 0, 0, 0, 0, 0, 0, 0, 0, 0, 0, 0, 0, 0, 0, 0, 0, 0, 0,
   fun _ => 0, fun _ => 0, fun _ => 0, fun _ => 0,
   fun _ => 0, fun _ => 0, fun _ => 0, fun _ => 0, 0, 0, 0⟩

/-- Composition studied by the round-trip claim: decode the register map
    produced by the bulk encoder. -/
def decEnc (r : HoldingRegs) : HoldingRegs := DecodeHoldingMap (EncodeHoldingRegs r)

/-- Source struct `InputRegs`. The `ExtBtn*` fields are referenced by the
    merge loops in `main` and `handleReadInput` (the struct declaration in
    the register-map file predates them); they are included here with the
    layout those loops use. -/
structure InputRegs where
  FactDeviceID : ℕ
  FactSerialNum : ℕ
  FactEthernetMAC : Fin 3 → ℕ
  FactHWRevision : ℕ
  FirmRevision : ℕ
  SysBuildNumber : ℕ
  SysRegmapVersion : ℕ
  SysOptions : ℕ
  FutConfig : ℕ
  FutMode : ℕ
  FutError : ℕ
  FutWarning : ℕ
  TempAmbient : ℚ
  TempFresh : ℚ
  TempIndoor : ℚ
  TempWaste : ℚ
  HumiAmbient : ℚ
  HumiFresh : ℚ
  HumiIndoor : ℚ
  HumiWaste : ℚ
  TOut : ℚ
  FilterWear : ℕ
  PowerConsumption : ℕ
  HeatRecovering : ℕ
  HeatingPower : ℕ
  AirFlow : ℕ
  FanPWMSupply : ℕ
  FanPWMExhaust : ℕ
  FanRPMSupply : ℕ
  FanRPMExhaust : ℕ
  Uin1Voltage : ℕ
  Uin2Voltage : ℕ
  DigInputs : ℕ
  SysBatteryVoltage : ℕ
  MBDevStatReads : ℕ
  MBDevStatWrites : ℕ
  MBDevStatFails : ℕ
  MBDevConnectedMkUI : ℕ
  MBDevConnectedMkSens : ℕ
  MBDevConnectedCoolBreeze : ℕ
  MBDevConnectedValveSupply : ℕ
  MBDevConnectedValveExhaust : ℕ
  MBDevConnectedButton : ℕ
  MBDevConnectedAlfa : ℕ
  VzvIdentify : ℕ
  UIAddress : Fin 3 → ℕ
  UIOptions : Fin 3 → ℕ
  UICo2 : Fin 3 → ℕ
  UITemp : Fin 3 → ℚ
  UIHumi : Fin 3 → ℚ
  SensMBAddress : Fin 8 → ℕ
  SensOptions : Fin 8 → ℕ
  SensCo2 : Fin 8 → ℕ
  SensTemp : Fin 8 → ℚ
  SensHumi : Fin 8 → ℚ
  AlfaMBAddress : Fin 8 → ℕ
  AlfaOptions : Fin 8 → ℕ
  AlfaCo2 : Fin 8 → ℕ
  AlfaTemp : Fin 8 → ℚ
  AlfaHumi : Fin 8 → ℚ
  AlfaNTCTemp : Fin 8 → ℚ
  ExtSensPresent : Fin 8 → ℕ
  ExtSensInvalidate : Fin 8 → ℕ
  ExtSensTemp : Fin 8 → ℚ
  ExtSensRH : Fin 8 → ℚ
  ExtSensCo2 : Fin 8 → ℕ
  ExtSensTFloor : Fin 8 → ℚ
  ExtBtnPresent : Fin 8 → ℕ
  ExtBtnMode : Fin 8 → ℕ
  ExtBtnTm : Fin 8 → ℕ
  ExtBtnActive : Fin 8 → ℕ

/-- Source `DecodeInputMap`: constructs `InputRegs` from a `map[address]value`.
    Fields the source never assigns (the `ExtBtn*` arrays) keep the Go zero
    value of `r := InputRegs{}`. -/
def DecodeInputMap (m : RawMap) : InputRegs where
  FactDeviceID := u16 m AddrFactDeviceID
  FactSerialNum := u32 m AddrFactSerialNum
  FactEthernetMAC := fun i => u16 m (AddrFactEthernetMAC + (i : ℕ))
  FactHWRevision := u32 m AddrFactHWRevision
  FirmRevision := u32 m AddrFirmRevision
  SysBuildNumber := u32 m AddrSysBuildNumber
  SysRegmapVersion := u32 m AddrSysRegmapVersion
  SysOptions := u16 m AddrSysOptions
  FutConfig := u16 m AddrFutConfig
  FutMode := u32 m AddrFutMode
  FutError := u32 m AddrFutError
  FutWarning := u32 m AddrFutWarning
  TempAmbient := i16f m AddrFutTempAmbient (1/10)
  TempFresh := i16f m AddrFutTempFresh (1/10)
  TempIndoor := i16f m AddrFutTempIndoor (1/10)
  TempWaste := i16f m AddrFutTempWaste (1/10)
  HumiAmbient := i16f m AddrFutHumiAmbient (1/10)
  HumiFresh := i16f m AddrFutHumiFresh (1/10)
  HumiIndoor := i16f m AddrFutHumiIndoor (1/10)
  HumiWaste := i16f m AddrFutHumiWaste (1/10)
  TOut := i16f m AddrFutTOut (1/10)
  FilterWear := u16 m AddrFutFilterWear
  PowerConsumption := u16 m AddrPowerConsumption
  HeatRecovering := u16 m AddrHeatRecovering
  HeatingPower := u16 m AddrHeatingPower
  AirFlow := u16 m AddrAirFlow
  FanPWMSupply := u16 m AddrFanPWMSupply
  FanPWMExhaust := u16 m AddrFanPWMExhaust
  FanRPMSupply := u16 m AddrFanRPMSupply
  FanRPMExhaust := u16 m AddrFanRPMExhaust
  Uin1Voltage := u16 m AddrUin1Voltage
  Uin2Voltage := u16 m AddrUin2Voltage
  DigInputs := u16 m AddrDigInputs
  SysBatteryVoltage := u16 m AddrSysBatteryVoltage
  MBDevStatReads := u32 m AddrMBDevStatReads
  MBDevStatWrites := u32 m AddrMBDevStatWrites
  MBDevStatFails := u32 m AddrMBDevStatFails
  MBDevConnectedMkUI := u16 m AddrMBDevConnectedMkUI
  MBDevConnectedMkSens := u32 m AddrMBDevConnectedMkSens
  MBDevConnectedCoolBreeze := u16 m AddrMBDevConnectedCoolBreeze
  MBDevConnectedValveSupply := u32 m AddrMBDevConnectedValveSupply
  MBDevConnectedValveExhaust := u32 m AddrMBDevConnectedValveExhaust
  MBDevConnectedButton := u16 m AddrMBDevConnectedButton
  MBDevConnectedAlfa := u16 m AddrMBDevConnectedAlfa
  VzvIdentify := u16 m AddrVzvIdentify
  UIAddress := fun i => u16 m (AddrUIBase + (i : ℕ) * 5)
  UIOptions := fun i => u16 m (AddrUIBase + (i : ℕ) * 5 + 1)
  UICo2 := fun i => u16 m (AddrUIBase + (i : ℕ) * 5 + 2)
  UITemp := fun i => i16f m (AddrUIBase + (i : ℕ) * 5 + 3) (1/10)
  UIHumi := fun i => u16f m (AddrUIBase + (i : ℕ) * 5 + 4) (1/10)
  SensMBAddress := fun i => u16 m (AddrSensBase + (i : ℕ) * 5)
  SensOptions := fun i => u16 m (AddrSensBase + (i : ℕ) * 5 + 1)
  SensCo2 := fun i => u16 m (AddrSensBase + (i : ℕ) * 5 + 2)
  SensTemp := fun i => i16f m (AddrSensBase + (i : ℕ) * 5 + 3) (1/10)
  SensHumi := fun i => u16f m (AddrSensBase + (i : ℕ) * 5 + 4) (1/10)
  AlfaMBAddress := fun i => u16 m (AddrAlfaBase + (i : ℕ) * 10)
  AlfaOptions := fun i => u16 m (AddrAlfaBase + (i : ℕ) * 10 + 1)
  AlfaCo2 := fun i => u16 m (AddrAlfaBase + (i : ℕ) * 10 + 2)
  AlfaTemp := fun i => i16f m (AddrAlfaBase + (i : ℕ) * 10 + 3) (1/10)
  AlfaHumi := fun i => u16f m (AddrAlfaBase + (i : ℕ) * 10 + 4) (1/10)
  AlfaNTCTemp := fun i => u16f m (AddrAlfaBase + (i : ℕ) * 10 + 5) (1/10)
  ExtSensPresent := fun i => u16 m (AddrExtSensBase + (i : ℕ) * 10)
  ExtSensInvalidate := fun i => u16 m (AddrExtSensBase + (i : ℕ) * 10 + 1)
  ExtSensTemp := fun i => i16f m (AddrExtSensBase + (i : ℕ) * 10 + 2) (1/10)
  ExtSensRH := fun i => u16f m (AddrExtSensBase + (i : ℕ) * 10 + 3) 1
  ExtSensCo2 := fun i => u16 m (AddrExtSensBase + (i : ℕ) * 10 + 4)
  ExtSensTFloor := fun i => i16f m (AddrExtSensBase + (i : ℕ) * 10 + 5) (1/10)
  ExtBtnPresent := fun _ => 0
  ExtBtnMode := fun _ => 0
  ExtBtnTm := fun _ => 0
  ExtBtnActive := fun _ => 0

/-- Merge loops of `main` and `handleReadInput`: overwrite the decoded
    input record's external-sensor and external-button fields with values
    decoded from the holding map, unconditionally. -/
def mergeHoldingIntoInput (input : InputRegs) (holdingMap : RawMap) : InputRegs :=
  { input with
    ExtSensPresent := fun i => u16 holdingMap (AddrExtSensBase + (i : ℕ) * 10)
    ExtSensInvalidate := fun i => u16 holdingMap (AddrExtSensBase + (i : ℕ) * 10 + 1)
    ExtSensTemp := fun i => i16f holdingMap (AddrExtSensBase + (i : ℕ) * 10 + 2) (1/10)
    ExtSensRH := fun i => u16f holdingMap (AddrExtSensBase + (i : ℕ) * 10 + 3) 1
    ExtSensCo2 := fun i => u16 holdingMap (AddrExtSensBase + (i : ℕ) * 10 + 4)
    ExtSensTFloor := fun i => i16f holdingMap (AddrExtSensBase + (i : ℕ) * 10 + 5) (1/10)
    ExtBtnPresent := fun i => u16 holdingMap (AddrHoldingExtBtnBase + (i : ℕ) * 10)
    ExtBtnMode := fun i => u16 holdingMap (AddrHoldingExtBtnBase + (i : ℕ) * 10 + 1)
    ExtBtnTm := fun i => u16 holdingMap (AddrHoldingExtBtnBase + (i : ℕ) * 10 + 2)
    ExtBtnActive := fun i => u16 holdingMap (AddrHoldingExtBtnBase + (i : ℕ) * 10 + 3) }

/-! ## C7 — missing addresses decode as zero -/

/-- Replace every address absent from a raw map by an explicit raw zero. -/
def withZeroDefaults (m : RawMap) : RawMap := fun a => some ((m a).getD 0)

/-! ## RangeReader: `collectRanges` with single-retry recovery.

The shared Modbus client is modelled by its failure schedule: `readS` and
`openS` list the outcomes of the upcoming `ReadRegisters` and re-`Open`
calls (`true` = the call fails); an exhausted list means calls succeed.
The device's register contents are a function `mem`; a successful read of
`q` registers from `batchStart` returns `mem ((batchStart + idx) % 65536)`
for `idx < q`. -/

structure ConnState where
  readS : List Bool
  openS : List Bool

/-- Values returned by a successful `client.ReadRegisters(batchStart, q, kind)`. -/
def readVals (mem : ℕ → ℕ) (s q : ℕ) : List ℕ :=
  (List.range q).map (fun idx => mem ((s + idx) % 65536))

/-- One block with the source's recovery logic: on a read failure, close the
    connection, back off, reopen once and retry the same block exactly once;
    a reopen failure or a failed retry abandons the block (`none`). The last
    component counts the `ReadRegisters` calls made for this block. -/
def attemptBlock (mem : ℕ → ℕ) (st : ConnState) (s q : ℕ) :
    ConnState × Option (List ℕ) × ℕ :=
  if st.readS.headI then
    let rs := st.readS.tail
    if st.openS.headI then (⟨rs, st.openS.tail⟩, none, 1)
    else if rs.headI then (⟨rs.tail, st.openS.tail⟩, none, 2)
    else (⟨rs.tail, st.openS.tail⟩, some (readVals mem s q), 2)
  else (⟨st.readS.tail, st.openS⟩, some (readVals mem s q), 1)

/-- Source loop `for idx, val := range regs { out[batchStart+uint16(idx)] = val }`. -/
def insertRegs (s : ℕ) : RawMap → ℕ → List ℕ → RawMap
  | out, _, [] => out
  | out, idx, v :: rest => insertRegs s (rawInsert out ((s + idx) % 65536) v) (idx + 1) rest

/-- A log entry per issued block: `(batchStart, batchQuantity, read calls)`. -/
abbrev BlockLog := List (ℕ × ℕ × ℕ)

/-- Block loop of `collectRanges` over one range, faithful to the source's
    uint16 arithmetic (`i += maxBlockSize` and `i + batchQuantity` wrap).
    `fuel` bounds the iterations; the claims below stay in the region where
    the source loop terminates within the fuel. -/
def collectBlocks (mem : ℕ → ℕ) (start total B : ℕ) :
    ℕ → ℕ → ConnState → RawMap → BlockLog → RawMap × BlockLog × ConnState
  | 0, _, st, out, log => (out, log, st)
  | fuel + 1, i, st, out, log =>
    if i < total then
      match attemptBlock mem st ((start + i) % 65536)
          (if (i + B) % 65536 > total then total - i else B) with
      | (st2, none, calls) =>
          collectBlocks mem start total B fuel ((i + B) % 65536) st2 out
            (log ++ [((start + i) % 65536,
                      if (i + B) % 65536 > total then total - i else B, calls)])
      | (st2, some regs, calls) =>
          collectBlocks mem start total B fuel ((i + B) % 65536) st2
            (insertRegs ((start + i) % 65536) out 0 regs)
            (log ++ [((start + i) % 65536,
                      if (i + B) % 65536 > total then total - i else B, calls)])
    else (out, log, st)

/-- Source `totalToRead := (end - start) + 1`, computed in uint16 arithmetic. -/
def rangeTotal (r : ℕ × ℕ) : ℕ := ((r.2 + 65536 - r.1) % 65536 + 1) % 65536

/-- Source `collectRanges`: reads every range in blocks of at most
    `maxBlockSize` registers, merging results into one map; also returns
    the log of issued block reads and the final connection state. -/
def collectRanges (mem : ℕ → ℕ) (st : ConnState) (ranges : List (ℕ × ℕ))
    (maxBlockSize : ℕ) : RawMap × BlockLog × ConnState :=
  ranges.foldl
    (fun acc r =>
      collectBlocks mem r.1 (rangeTotal r) maxBlockSize 65536 0 acc.2.2 acc.1 acc.2.1)
    (emptyRaw, [], st)

/-- Source `validateRanges`: each range must have `start ≤ end` and
    `end ≤ maxAddr` (the two-bounds shape is the pair type itself);
    `log.Fatalf` is modelled as returning `false`. -/
def validateRanges (ranges : List (ℕ × ℕ)) (maxAddr : ℕ) : Bool :=
  ranges.all (fun r => decide (r.1 ≤ r.2) && decide (r.2 ≤ maxAddr))

/-! Pure view of the loop: the blocks issued do not depend on read outcomes. -/

/-- The `(batchStart, batchQuantity)` sequence the block loop issues. -/
def blocksFrom (start total B : ℕ) : ℕ → ℕ → List (ℕ × ℕ)
  | 0, _ => []
  | fuel + 1, i =>
    if i < total then
      ((start + i) % 65536, if (i + B) % 65536 > total then total - i else B)
        :: blocksFrom start total B fuel ((i + B) % 65536)
    else []

/-- Sequential processing of a block list against a failure schedule. -/
def processBlocks (mem : ℕ → ℕ) :
    List (ℕ × ℕ) → ConnState → RawMap → BlockLog → RawMap × BlockLog × ConnState
  | [], st, out, log => (out, log, st)
  | (s, q) :: rest, st, out, log =>
    match attemptBlock mem st s q with
    | (st2, none, calls) => processBlocks mem rest st2 out (log ++ [(s, q, calls)])
    | (st2, some regs, calls) =>
        processBlocks mem rest st2 (insertRegs s out 0 regs) (log ++ [(s, q, calls)])

/-- All blocks of a run, in order: the per-range block lists concatenated. -/
def rangesBlocks (ranges : List (ℕ × ℕ)) (B : ℕ) : List (ℕ × ℕ) :=
  (ranges.map (fun r => blocksFrom r.1 (rangeTotal r) B 65536 0)).flatten

/-! Per-block failure patterns and the run characterization. -/

/-- Outcome of one block against the failure schedule: first read succeeds;
    first read fails and the retry succeeds; or both reads fail. -/
inductive Outcome where
  | succeed
  | retryThenSucceed
  | failTwice
  deriving DecidableEq

/-- Read-call results a block outcome consumes. -/
def outcomeReads : Outcome → List Bool
  | .succeed => [false]
  | .retryThenSucceed => [true, false]
  | .failTwice => [true, true]

/-- Read calls a block outcome costs. -/
def outcomeCalls : Outcome → ℕ
  | .succeed => 1
  | .retryThenSucceed => 2
  | .failTwice => 2

/-- Read-failure schedule realizing a per-block outcome pattern. -/
def patReads (pat : List Outcome) : List Bool := (pat.map outcomeReads).flatten

/-- The addresses a block `(batchStart, batchQuantity)` stores into. -/
def blockCovers (b : ℕ × ℕ) (a : ℕ) : Prop := ∃ idx < b.2, (b.1 + idx) % 65536 = a

instance (b : ℕ × ℕ) (a : ℕ) : Decidable (blockCovers b a) := by
  unfold blockCovers
  infer_instance

/-! Lemmas and claim theorems. -/

/-! Arithmetic facts about truncation and 16-bit wrapping. -/

lemma abs_truncQ_sub_lt (q : ℚ) : |(truncQ q : ℚ) - q| < 1 := by
  unfold truncQ
  split
  · rw [abs_sub_lt_iff]
    exact ⟨by linarith [Int.floor_le q], by linarith [Int.sub_one_lt_floor q]⟩
  · rw [abs_sub_lt_iff]
    exact ⟨by linarith [Int.ceil_lt_add_one q], by linarith [Int.le_ceil q]⟩

lemma i16_u16OfInt (z : ℤ) (h1 : -32768 ≤ z) (h2 : z ≤ 32767) :
    (i16 (u16OfInt z) : ℤ) = z := by
  unfold i16 u16OfInt
  split <;> omega

lemma u16OfInt_of_mem (z : ℤ) (h1 : 0 ≤ z) (h2 : z ≤ 65535) :
    ((u16OfInt z : ℕ) : ℤ) = z := by
  unfold u16OfInt
  omega

/-- Truncating encode then signed decode loses strictly less than one scale unit. -/
lemma roundtrip_i16_scaled (x : ℚ)
    (h1 : -32768 ≤ truncQ (x / (1/10))) (h2 : truncQ (x / (1/10)) ≤ 32767) :
    |(i16 (encScaled x) : ℚ) * (1/10) - x| < 1/10 := by
  unfold encScaled
  rw [i16_u16OfInt _ h1 h2]
  have h := abs_truncQ_sub_lt (x / (1/10))
  have hx : x = x / (1/10) * (1/10) := by ring
  calc |(truncQ (x / (1/10)) : ℚ) * (1/10) - x|
      = |((truncQ (x / (1/10)) : ℚ) - x / (1/10))| * |(1/10 : ℚ)| := by
        rw [← abs_mul]
        congr 1
        rw [hx]
        ring
    _ < 1 * (1/10 : ℚ) := by
        rw [show |(1/10 : ℚ)| = 1/10 by norm_num]
        exact mul_lt_mul_of_pos_right h (by norm_num)
    _ = 1/10 := by norm_num

/-- Truncating encode then unsigned decode loses strictly less than one scale unit. -/
lemma roundtrip_u16_scaled (x : ℚ)
    (h1 : 0 ≤ truncQ (x / (1/10))) (h2 : truncQ (x / (1/10)) ≤ 65535) :
    |(encScaled x : ℚ) * (1/10) - x| < 1/10 := by
  unfold encScaled
  have hcast : ((u16OfInt (truncQ (x / (1/10))) : ℕ) : ℚ)
      = ((truncQ (x / (1/10)) : ℤ) : ℚ) := by
    exact_mod_cast u16OfInt_of_mem _ h1 h2
  rw [hcast]
  have h := abs_truncQ_sub_lt (x / (1/10))
  have hx : x = x / (1/10) * (1/10) := by ring
  calc |(truncQ (x / (1/10)) : ℚ) * (1/10) - x|
      = |((truncQ (x / (1/10)) : ℚ) - x / (1/10))| * |(1/10 : ℚ)| := by
        rw [← abs_mul]
        congr 1
        rw [hx]
        ring
    _ < 1 * (1/10 : ℚ) := by
        rw [show |(1/10 : ℚ)| = 1/10 by norm_num]
        exact mul_lt_mul_of_pos_right h (by norm_num)
    _ = 1/10 := by norm_num

/-! ## C9 — signed decode -/

/-- C9: a signed 1-register field with scale 0.1 decodes raw `0xFFFF` as the
    two's-complement value -1 times the scale, i.e. -0.1, and raw `0x0001`
    as 0.1, at any register address. -/
theorem C9_signed_decode :
    (∀ a : ℕ, i16f (rawInsert emptyRaw a 65535) a (1/10) = -(1/10))
    ∧ (∀ a : ℕ, i16f (rawInsert emptyRaw a 1) a (1/10) = 1/10) := by
  constructor <;> intro a <;>
    simp [i16f, mget, rawInsert, i16]

/-! Evaluation of the writable-field lookups used in the claims. -/

lemma lookupWriteable_CfgTempSet :
    lookupWriteable "CfgTempSet" = some ⟨10, 1/10, 1⟩ := by
  simp [lookupWriteable, WriteableFields]

lemma lookupWriteable_FuncVentilation :
    lookupWriteable "FuncVentilation" = some ⟨0, 1, 1⟩ := by
  simp [lookupWriteable, WriteableFields]

/-- Every entry of the writable-field table is single-register with a
    non-zero scale. -/
lemma WriteableFields_wf :
    ∀ p ∈ WriteableFields, p.2.RegCount = 1 ∧ p.2.Scale ≠ 0 := by
  intro p hp
  fin_cases hp <;> exact ⟨rfl, by norm_num⟩

lemma lookupWriteable_mem (name : String) (spec : WriteFieldSpec)
    (h : lookupWriteable name = some spec) :
    ∃ p ∈ WriteableFields, p.2 = spec := by
  unfold lookupWriteable at h
  rcases hfind : WriteableFields.find? (fun p => p.1 == name) with _ | p
  · rw [hfind] at h
    simp at h
  · rw [hfind] at h
    simp at h
    exact ⟨p, List.mem_of_find?_eq_some hfind, h⟩

lemma lookupWriteable_FuncBoostTm :
    lookupWriteable "FuncBoostTm" = some ⟨1, 1, 1⟩ := by
  simp [lookupWriteable, WriteableFields]

lemma lookupWriteable_NoSuchField :
    lookupWriteable "NoSuchField" = none := by
  simp [lookupWriteable, WriteableFields]

/-- One-step evaluation of the write path for `CfgTempSet` (scale 0.1, addr 10). -/
lemma WSR_CfgTempSet (wdev : ℕ → ℕ → Bool) (value : ℚ) :
    WriteSingleRegister wdev "CfgTempSet" value =
      if truncQ (value / (1/10)) < -32768 ∨ 65535 < truncQ (value / (1/10)) then
        (.error .outOfRange, [])
      else if wdev 10 (u16OfInt (truncQ (value / (1/10)))) then
        (.ok (), [(10, u16OfInt (truncQ (value / (1/10))))])
      else
        (.error (.writeFailed 10), [(10, u16OfInt (truncQ (value / (1/10))))]) := by
  simp only [WriteSingleRegister, lookupWriteable_CfgTempSet]
  norm_num

/-! ## C3 — single-field write encoding -/

/-- C3 counterexample: at value 21.58 (scale 0.1) the code encodes the
    truncation 215 of 215.8, while the claimed `round(value / scale)`
    is 216, so the write does not compute a rounding. -/
theorem C3_counterexample :
    WriteSingleRegister (fun _ _ => true) "CfgTempSet" (1079/50)
      = (.ok (), [(10, 215)])
    ∧ specRound ((1079/50 : ℚ) / (1/10)) = 216
    ∧ (215 : ℕ) ≠ 216 := by
  refine ⟨?_, ?_, by decide⟩
  · rw [WSR_CfgTempSet, if_neg (by norm_num [truncQ])]
    norm_num [truncQ, u16OfInt]
    omega
  · norm_num [specRound]

/-- C3 amended: for every writable single-register field and every value
    whose truncated scaled form is in range, the single-field write computes
    `scaled` by truncating `value / scale` toward zero (not by rounding to
    nearest) and issues one write of the 16-bit two's-complement bit pattern
    of `scaled`; in particular `CfgTempSet` at 21.5 encodes to raw 215. -/
theorem C3_truncating_write :
    (∀ (name : String) (spec : WriteFieldSpec) (value : ℚ) (wdev : ℕ → ℕ → Bool),
      lookupWriteable name = some spec →
      spec.RegCount = 1 →
      spec.Scale ≠ 0 →
      -32768 ≤ truncQ (value / spec.Scale) →
      truncQ (value / spec.Scale) ≤ 65535 →
      wdev spec.Addr (u16OfInt (truncQ (value / spec.Scale))) = true →
      WriteSingleRegister wdev name value
        = (.ok (), [(spec.Addr, u16OfInt (truncQ (value / spec.Scale)))]))
    ∧ WriteSingleRegister (fun _ _ => true) "CfgTempSet" (43/2)
        = (.ok (), [(10, 215)]) := by
  constructor
  · intro name spec value wdev hfind h1 h2 h3 h4 h5
    simp only [WriteSingleRegister, hfind]
    rw [if_neg (by simp [h1]), if_neg h2,
        if_neg (by push_neg; exact ⟨by omega, by omega⟩), if_pos h5]
  · rw [WSR_CfgTempSet, if_neg (by norm_num [truncQ])]
    norm_num [truncQ, u16OfInt]
    omega

/-- C3 witness: the general clause applied to `FuncBoostTm` (scale 1) at value 7. -/
theorem C3_witness :
    WriteSingleRegister (fun _ _ => true) "FuncBoostTm" 7 = (.ok (), [(1, 7)]) := by
  have h := C3_truncating_write.1 "FuncBoostTm" ⟨1, 1, 1⟩ 7
    (fun _ _ => true)
    lookupWriteable_FuncBoostTm rfl (by norm_num)
    (by norm_num [truncQ]) (by norm_num [truncQ]) rfl
  rw [h]
  norm_num [truncQ, u16OfInt]
  omega

/-! ## C8 — write-path range validation -/

/-- C8: for every field name resolved in `WriteableFields`, the single-field
    write fails with `OutOfRange` exactly when the truncated scaled value
    lies outside `[-32768, 65535]`; on that failure, and on an unknown field
    name, no protocol write is issued; in particular `CfgTempSet` at 999999
    fails with `OutOfRange` and `NoSuchField` fails with
    `UnknownOrNotWritable`, both without any write. -/
theorem C8_write_validation :
    (∀ (wdev : ℕ → ℕ → Bool) (name : String) (spec : WriteFieldSpec) (value : ℚ),
      lookupWriteable name = some spec →
      ((WriteSingleRegister wdev name value).1 = .error .outOfRange
        ↔ ¬(-32768 ≤ truncQ (value / spec.Scale) ∧ truncQ (value / spec.Scale) ≤ 65535)))
    ∧ (∀ (wdev : ℕ → ℕ → Bool) (value : ℚ),
      (WriteSingleRegister wdev "CfgTempSet" value).1 = .error .outOfRange
        ↔ ¬(-32768 ≤ truncQ (value / (1/10)) ∧ truncQ (value / (1/10)) ≤ 65535))
    ∧ (∀ (wdev : ℕ → ℕ → Bool) (name : String) (value : ℚ),
        (WriteSingleRegister wdev name value).1 = .error .outOfRange →
        (WriteSingleRegister wdev name value).2 = [])
    ∧ (∀ wdev : ℕ → ℕ → Bool,
        WriteSingleRegister wdev "CfgTempSet" 999999 = (.error .outOfRange, []))
    ∧ (∀ wdev : ℕ → ℕ → Bool,
        WriteSingleRegister wdev "NoSuchField" 1 = (.error .unknownOrNotWritable, []))
    ∧ (∀ (wdev : ℕ → ℕ → Bool) (name : String) (value : ℚ),
        (WriteSingleRegister wdev name value).1 = .error .unknownOrNotWritable →
        (WriteSingleRegister wdev name value).2 = []) := by
  have hgen : ∀ (wdev : ℕ → ℕ → Bool) (name : String) (spec : WriteFieldSpec) (value : ℚ),
      lookupWriteable name = some spec →
      ((WriteSingleRegister wdev name value).1 = .error .outOfRange
        ↔ ¬(-32768 ≤ truncQ (value / spec.Scale) ∧ truncQ (value / spec.Scale) ≤ 65535)) := by
    intro wdev name spec value hfind
    obtain ⟨p, hp, hps⟩ := lookupWriteable_mem name spec hfind
    obtain ⟨hrc, hsc⟩ := WriteableFields_wf p hp
    rw [hps] at hrc hsc
    simp only [WriteSingleRegister, hfind]
    rw [if_neg (by simp [hrc]), if_neg hsc]
    by_cases hc : truncQ (value / spec.Scale) < -32768 ∨ 65535 < truncQ (value / spec.Scale)
    · rw [if_pos hc]
      refine iff_of_true rfl ?_
      rcases hc with hc | hc <;> omega
    · rw [if_neg hc]
      push_neg at hc
      refine iff_of_false ?_ ?_
      · split_ifs <;> simp
      · omega
  refine ⟨hgen, ?_, ?_, ?_, ?_, ?_⟩
  · intro wdev value
    exact hgen wdev "CfgTempSet" ⟨10, 1/10, 1⟩ value lookupWriteable_CfgTempSet
  · intro wdev name value
    unfold WriteSingleRegister
    cases hspec : lookupWriteable name
    · simp
    · dsimp only
      split_ifs <;> simp
  · intro wdev
    rw [WSR_CfgTempSet, if_pos (by norm_num [truncQ])]
  · intro wdev
    simp only [WriteSingleRegister, lookupWriteable_NoSuchField]
  · intro wdev name value
    unfold WriteSingleRegister
    cases hspec : lookupWriteable name
    · simp
    · dsimp only
      split_ifs <;> simp

/-- C8 witness: the general out-of-range clause instantiated at
    `FuncVentilation` (scale 1) with value 70000 and at `CfgTempSet` with
    value 999999, showing the failure and the absence of any issued write. -/
theorem C8_witness :
    (WriteSingleRegister (fun _ _ => true) "FuncVentilation" 70000).1
        = Except.error WriteError.outOfRange
    ∧ (WriteSingleRegister (fun _ _ => true) "FuncVentilation" 70000).2 = []
    ∧ (WriteSingleRegister (fun _ _ => true) "CfgTempSet" 999999).1
        = Except.error WriteError.outOfRange := by
  have h1 := (C8_write_validation.1 (fun _ _ => true) "FuncVentilation" ⟨0, 1, 1⟩ 70000
    lookupWriteable_FuncVentilation).mpr (by norm_num [truncQ])
  have h2 := (C8_write_validation.2.1 (fun _ _ => true) 999999).mpr
    (by norm_num [truncQ])
  exact ⟨h1, C8_write_validation.2.2.1 (fun _ _ => true) "FuncVentilation" 70000 h1, h2⟩

/-! ## C2 — out-of-range scaled values -/

/-- C2 counterexample: a record whose `CfgTempSet` scales to 70000 (which
    does not fit any 16-bit representation) is not rejected by
    `EncodeHoldingRegs` — the encoder has no error path — and the produced
    register word is the silently wrapped 70000 mod 65536 = 4464. -/
theorem C2_counterexample :
    truncQ ((7000 : ℚ) / (1/10)) = 70000
    ∧ ¬((70000 : ℤ) ≤ 65535)
    ∧ EncodeHoldingRegs { zeroHolding with CfgTempSet := 7000 } AddrHoldingCfgTempSet
        = some 4464
    ∧ (4464 : ℕ) = 70000 % 65536
    ∧ (4464 : ℕ) ≠ 70000 := by
  refine ⟨by norm_num [truncQ], by norm_num, ?_, by norm_num, by norm_num⟩
  simp only [EncodeHoldingRegs, rawInsert, emptyRaw]
  norm_num [encScaled, truncQ, u16OfInt]
  omega

/-- C2 amended: only the single-register write path rejects a scaled value
    outside `[-32768, 65535]` with `OutOfRange` (issuing no write); the bulk
    encoder `EncodeHoldingRegs` performs no range validation and stores the
    low 16 bits of the truncated scaled value unconditionally. -/
theorem C2_range_rejection :
    (∀ (wdev : ℕ → ℕ → Bool) (value : ℚ),
      (truncQ (value / (1/10)) < -32768 ∨ 65535 < truncQ (value / (1/10))) →
      WriteSingleRegister wdev "CfgTempSet" value = (.error .outOfRange, []))
    ∧ (∀ r : HoldingRegs,
        EncodeHoldingRegs r AddrHoldingCfgTempSet = some (encScaled r.CfgTempSet)) := by
  constructor
  · intro wdev value h
    rw [WSR_CfgTempSet, if_pos h]
  · intro r
    simp [EncodeHoldingRegs, rawInsert, emptyRaw]

/-- C2 witness: the rejection clause applied at value 7000 (scaled 70000). -/
theorem C2_witness :
    WriteSingleRegister (fun _ _ => true) "CfgTempSet" 7000
      = (Except.error WriteError.outOfRange, []) :=
  C2_range_rejection.1 (fun _ _ => true) 7000 (by norm_num [truncQ])

/-! ## C1 — decode∘encode round trip -/

/-- C1 counterexample: the record with `CfgTempSet = 0.19` (scaled value 1,
    well inside the field's numeric range) decodes after encoding to 0.1,
    an error of 0.09, which exceeds the claimed bound scale/2 = 0.05. -/
theorem C1_counterexample :
    truncQ ((19/100 : ℚ) / (1/10)) = 1
    ∧ (DecodeHoldingMap (EncodeHoldingRegs
        { zeroHolding with CfgTempSet := 19/100 })).CfgTempSet = 1/10
    ∧ ¬(|(1/10 : ℚ) - 19/100| ≤ (1/10)/2) := by
  refine ⟨by norm_num [truncQ], ?_, by norm_num [abs_sub_lt_iff, abs_le]⟩
  simp only [DecodeHoldingMap, i16f, mget, EncodeHoldingRegs, rawInsert, emptyRaw]
  norm_num [encScaled, truncQ, u16OfInt, i16]

/-- C1 amended: for every record whose scaled fields are representable
    (truncated scaled value in the signed 16-bit range, resp. `[0, 65535]`
    for the unsigned `CfgHumiSet`, and 32-bit values for the away timers),
    decoding the encoded map reproduces every unscaled field exactly and
    every scaled field to strictly within one encoding unit (< scale, not
    ≤ scale/2: the encoder truncates instead of rounding). -/
theorem C1_roundtrip (r : HoldingRegs)
    (hTS1 : -32768 ≤ truncQ (r.CfgTempSet / (1/10)))
    (hTS2 : truncQ (r.CfgTempSet / (1/10)) ≤ 32767)
    (hHS1 : 0 ≤ truncQ (r.CfgHumiSet / (1/10)))
    (hHS2 : truncQ (r.CfgHumiSet / (1/10)) ≤ 65535)
    (hUI : ∀ i, -32768 ≤ truncQ (r.UITempCorr i / (1/10))
            ∧ truncQ (r.UITempCorr i / (1/10)) ≤ 32767)
    (hESC : ∀ i, -32768 ≤ truncQ (r.ExtSensTempCorr i / (1/10))
            ∧ truncQ (r.ExtSensTempCorr i / (1/10)) ≤ 32767)
    (hAT : ∀ i, -32768 ≤ truncQ (r.AlfaTempCorr i / (1/10))
            ∧ truncQ (r.AlfaTempCorr i / (1/10)) ≤ 32767)
    (hANT : ∀ i, -32768 ≤ truncQ (r.AlfaNTCTempCorr i / (1/10))
            ∧ truncQ (r.AlfaNTCTempCorr i / (1/10)) ≤ 32767)
    (hAB : r.FuncAwayBegin < 4294967296)
    (hAE : r.FuncAwayEnd < 4294967296) :
    (decEnc r).FuncVentilation = r.FuncVentilation
    ∧ (decEnc r).FuncBoostTm = r.FuncBoostTm
    ∧ (decEnc r).FuncCirculationTm = r.FuncCirculationTm
    ∧ (decEnc r).FuncOverpressureTm = r.FuncOverpressureTm
    ∧ (decEnc r).FuncNightTm = r.FuncNightTm
    ∧ (decEnc r).FuncPartyTm = r.FuncPartyTm
    ∧ (decEnc r).FuncAwayBegin = r.FuncAwayBegin
    ∧ (decEnc r).FuncAwayEnd = r.FuncAwayEnd
    ∧ |(decEnc r).CfgTempSet - r.CfgTempSet| < 1/10
    ∧ |(decEnc r).CfgHumiSet - r.CfgHumiSet| < 1/10
    ∧ (decEnc r).FuncTimeProg = r.FuncTimeProg
    ∧ (decEnc r).FuncAntiradon = r.FuncAntiradon
    ∧ (decEnc r).CfgBypassEnable = r.CfgBypassEnable
    ∧ (decEnc r).CfgHeatingEnable = r.CfgHeatingEnable
    ∧ (decEnc r).CfgCoolingEnable = r.CfgCoolingEnable
    ∧ (decEnc r).CfgComfortEnable = r.CfgComfortEnable
    ∧ (decEnc r).VzvCBPriorityControl = r.VzvCBPriorityControl
    ∧ (decEnc r).VzvKitchenhoodNormallyOpen = r.VzvKitchenhoodNormallyOpen
    ∧ (decEnc r).VzvBoostVolumePerRun = r.VzvBoostVolumePerRun
    ∧ (decEnc r).VzvKitchenhoodNormallyOpenVolume = r.VzvKitchenhoodNormallyOpenVolume
    ∧ (∀ i, |(decEnc r).UITempCorr i - r.UITempCorr i| < 1/10)
    ∧ (∀ i, |(decEnc r).ExtSensTempCorr i - r.ExtSensTempCorr i| < 1/10)
    ∧ (∀ i, |(decEnc r).AlfaTempCorr i - r.AlfaTempCorr i| < 1/10)
    ∧ (∀ i, |(decEnc r).AlfaNTCTempCorr i - r.AlfaNTCTempCorr i| < 1/10)
    ∧ (∀ i, (decEnc r).ExtBtnPresent i = r.ExtBtnPresent i)
    ∧ (∀ i, (decEnc r).ExtBtnMode i = r.ExtBtnMode i)
    ∧ (∀ i, (decEnc r).ExtBtnTm i = r.ExtBtnTm i)
    ∧ (∀ i, (decEnc r).ExtBtnActive i = r.ExtBtnActive i)
    ∧ (decEnc r).AccessCode = r.AccessCode
    ∧ (decEnc r).UserPassword = r.UserPassword
    ∧ (decEnc r).PasswordTimeout = r.PasswordTimeout := by
  refine ⟨rfl, rfl, rfl, rfl, rfl, rfl, ?_, ?_,
          roundtrip_i16_scaled r.CfgTempSet hTS1 hTS2,
          roundtrip_u16_scaled r.CfgHumiSet hHS1 hHS2,
          rfl, rfl, rfl, rfl, rfl, rfl, rfl, rfl, rfl, rfl,
          ?_, ?_, ?_, ?_, ?_, ?_, ?_, ?_, rfl, rfl, rfl⟩
  · show (r.FuncAwayBegin / 65536 % 65536) * 65536 + r.FuncAwayBegin % 65536
        = r.FuncAwayBegin
    omega
  · show (r.FuncAwayEnd / 65536 % 65536) * 65536 + r.FuncAwayEnd % 65536
        = r.FuncAwayEnd
    omega
  · intro i
    have h := roundtrip_i16_scaled (r.UITempCorr i) (hUI i).1 (hUI i).2
    fin_cases i <;> exact h
  · intro i
    have h := roundtrip_i16_scaled (r.ExtSensTempCorr i) (hESC i).1 (hESC i).2
    fin_cases i <;> exact h
  · intro i
    have h := roundtrip_i16_scaled (r.AlfaTempCorr i) (hAT i).1 (hAT i).2
    fin_cases i <;> exact h
  · intro i
    have h := roundtrip_i16_scaled (r.AlfaNTCTempCorr i) (hANT i).1 (hANT i).2
    fin_cases i <;> exact h
  · intro i
    fin_cases i <;> rfl
  · intro i
    fin_cases i <;> rfl
  · intro i
    fin_cases i <;> rfl
  · intro i
    fin_cases i <;> rfl

/-- C1 witness: the round trip applied to the all-zero record, observing
    the exact and bounded-error conjuncts at representative fields. -/
theorem C1_witness :
    (decEnc zeroHolding).FuncVentilation = zeroHolding.FuncVentilation
    ∧ |(decEnc zeroHolding).CfgTempSet - zeroHolding.CfgTempSet| < 1/10 := by
  have h := C1_roundtrip zeroHolding
    (by norm_num [truncQ, zeroHolding]) (by norm_num [truncQ, zeroHolding])
    (by norm_num [truncQ, zeroHolding]) (by norm_num [truncQ, zeroHolding])
    (fun i => by norm_num [truncQ, zeroHolding])
    (fun i => by norm_num [truncQ, zeroHolding])
    (fun i => by norm_num [truncQ, zeroHolding])
    (fun i => by norm_num [truncQ, zeroHolding])
    (by norm_num [zeroHolding]) (by norm_num [zeroHolding])
  exact ⟨h.1, h.2.2.2.2.2.2.2.2.1⟩

/-! ## C6 — aliasing merge -/

/-- C6: the merge is an authoritative overwrite — after merging, every
    aliased external-sensor field equals the value decoded from the holding
    map, whatever the input-kind decode held; in particular an input decode
    of `ExtSensTemp[0] = 5.0` (raw 50 at input address 302) merged with a
    holding map holding raw 72 at address 302 yields 7.2. -/
theorem C6_merge_overwrite :
    (∀ (input : InputRegs) (holdingMap : RawMap) (i : Fin 8),
      (mergeHoldingIntoInput input holdingMap).ExtSensTemp i
        = i16f holdingMap (AddrExtSensBase + (i : ℕ) * 10 + 2) (1/10)
      ∧ (mergeHoldingIntoInput input holdingMap).ExtSensRH i
        = u16f holdingMap (AddrExtSensBase + (i : ℕ) * 10 + 3) 1
      ∧ (mergeHoldingIntoInput input holdingMap).ExtSensPresent i
        = u16 holdingMap (AddrExtSensBase + (i : ℕ) * 10))
    ∧ (DecodeInputMap (rawInsert emptyRaw 302 50)).ExtSensTemp 0 = 5
    ∧ (mergeHoldingIntoInput (DecodeInputMap (rawInsert emptyRaw 302 50))
        (rawInsert emptyRaw 302 72)).ExtSensTemp 0 = 36/5 := by
  refine ⟨fun input holdingMap i => ⟨rfl, rfl, rfl⟩, ?_, ?_⟩
  · show (i16 (mget (rawInsert emptyRaw 302 50) 302) : ℚ) * (1/10) = 5
    norm_num [mget, rawInsert, i16]
  · show (i16 (mget (rawInsert emptyRaw 302 72) 302) : ℚ) * (1/10) = 36/5
    norm_num [mget, rawInsert, i16]

/-- C7: a missing address reads as raw zero through every decode helper
    (yielding field value 0 after scaling), and decoding any partial map is
    identical to decoding the map with explicit zeros at all absent
    addresses — the decoder is total and never fails. -/
theorem C7_missing_decodes_zero :
    (∀ (m : RawMap) (a : ℕ), m a = none → u16 m a = 0)
    ∧ (∀ (m : RawMap) (a : ℕ) (s : ℚ), m a = none → i16f m a s = 0 ∧ u16f m a s = 0)
    ∧ (∀ (m : RawMap) (a : ℕ), m a = none → m (a + 1) = none → u32 m a = 0)
    ∧ (∀ m : RawMap, DecodeInputMap m = DecodeInputMap (withZeroDefaults m))
    ∧ (DecodeInputMap emptyRaw).TempAmbient = 0
    ∧ (DecodeInputMap emptyRaw).FactSerialNum = 0 := by
  refine ⟨?_, ?_, ?_, fun m => rfl, ?_, rfl⟩
  · intro m a h
    simp [u16, mget, h]
  · intro m a s h
    constructor
    · simp [i16f, mget, h, i16]
    · simp [u16f, mget, h]
  · intro m a h h1
    simp [u32, mget, h, h1]
  · show (i16 (mget emptyRaw 30) : ℚ) * (1/10) = 0
    norm_num [mget, emptyRaw, i16]

/-- C7 witness: the helper clauses applied to the empty map at address 30. -/
theorem C7_witness :
    u16 emptyRaw 30 = 0
    ∧ i16f emptyRaw 30 (1/10) = 0
    ∧ u32 emptyRaw 60 = 0
    ∧ DecodeInputMap emptyRaw = DecodeInputMap (withZeroDefaults emptyRaw) := by
  refine ⟨C7_missing_decodes_zero.1 emptyRaw 30 rfl,
    (C7_missing_decodes_zero.2.1 emptyRaw 30 (1/10) rfl).1,
    C7_missing_decodes_zero.2.2.1 emptyRaw 60 rfl rfl,
    C7_missing_decodes_zero.2.2.2.1 emptyRaw⟩

lemma collectBlocks_eq_process (mem : ℕ → ℕ) (start total B : ℕ) :
    ∀ (fuel i : ℕ) (st : ConnState) (out : RawMap) (log : BlockLog),
    collectBlocks mem start total B fuel i st out log
      = processBlocks mem (blocksFrom start total B fuel i) st out log := by
  intro fuel
  induction fuel with
  | zero => intro i st out log; rfl
  | succ fuel ih =>
    intro i st out log
    rw [collectBlocks, blocksFrom]
    by_cases h : i < total
    · rw [if_pos h, if_pos h]
      rcases hab : attemptBlock mem st ((start + i) % 65536)
          (if (i + B) % 65536 > total then total - i else B) with ⟨st2, res, calls⟩
      cases res with
      | none => simp only [processBlocks, hab, ih]
      | some regs => simp only [processBlocks, hab, ih]
    · rw [if_neg h, if_neg h]
      rfl

lemma processBlocks_append (mem : ℕ → ℕ) :
    ∀ (b1 b2 : List (ℕ × ℕ)) (st : ConnState) (out : RawMap) (log : BlockLog),
    processBlocks mem (b1 ++ b2) st out log
      = processBlocks mem b2 (processBlocks mem b1 st out log).2.2
          (processBlocks mem b1 st out log).1 (processBlocks mem b1 st out log).2.1 := by
  intro b1
  induction b1 with
  | nil => intro b2 st out log; rfl
  | cons b rest ih =>
    intro b2 st out log
    rcases b with ⟨s, q⟩
    rw [List.cons_append, processBlocks, processBlocks]
    rcases hab : attemptBlock mem st s q with ⟨st2, res, calls⟩
    cases res with
    | none => simp only [ih]
    | some regs => simp only [ih]

lemma collectRanges_eq_process (mem : ℕ → ℕ) (B : ℕ) :
    ∀ (ranges : List (ℕ × ℕ)) (st : ConnState) (out : RawMap) (log : BlockLog),
    ranges.foldl
      (fun acc r =>
        collectBlocks mem r.1 (rangeTotal r) B 65536 0 acc.2.2 acc.1 acc.2.1)
      (out, log, st)
      = processBlocks mem (rangesBlocks ranges B) st out log := by
  intro ranges
  induction ranges with
  | nil => intro st out log; rfl
  | cons r rest ih =>
    intro st out log
    rw [List.foldl_cons]
    have h1 : (rangesBlocks (r :: rest) B)
        = blocksFrom r.1 (rangeTotal r) B 65536 0 ++ rangesBlocks rest B := by
      simp [rangesBlocks]
    rw [h1, processBlocks_append]
    rw [show collectBlocks mem r.1 (rangeTotal r) B 65536 0 st out log
          = processBlocks mem (blocksFrom r.1 (rangeTotal r) B 65536 0) st out log
        from collectBlocks_eq_process mem r.1 (rangeTotal r) B 65536 0 st out log]
    rcases hpb : processBlocks mem (blocksFrom r.1 (rangeTotal r) B 65536 0) st out log
      with ⟨out2, log2, st2⟩
    exact ih st2 out2 log2

lemma collectRanges_process (mem : ℕ → ℕ) (st : ConnState) (ranges : List (ℕ × ℕ))
    (B : ℕ) :
    collectRanges mem st ranges B = processBlocks mem (rangesBlocks ranges B) st emptyRaw [] :=
  collectRanges_eq_process mem B ranges st emptyRaw []

lemma attemptBlock_outcome (mem : ℕ → ℕ) (s q : ℕ) (o : Outcome) (rest : List Bool) :
    attemptBlock mem ⟨outcomeReads o ++ rest, []⟩ s q
      = (⟨rest, []⟩,
         if o = .failTwice then none else some (readVals mem s q),
         outcomeCalls o) := by
  cases o <;> simp [attemptBlock, outcomeReads, outcomeCalls]

lemma attemptBlock_nil (mem : ℕ → ℕ) (s q : ℕ) :
    attemptBlock mem ⟨[], []⟩ s q = (⟨[], []⟩, some (readVals mem s q), 1) := by
  simp [attemptBlock]

lemma attemptBlock_calls (mem : ℕ → ℕ) (st : ConnState) (s q : ℕ) :
    (attemptBlock mem st s q).2.2 ≤ 2 := by
  rcases st with ⟨rs, os⟩
  unfold attemptBlock
  by_cases h1 : rs.headI <;> simp [h1]
  by_cases h2 : os.headI <;> simp [h2]
  by_cases h3 : rs.tail.headI <;> simp [h3]

/-- Lookup after inserting the block's returned registers: inside the block
    the device value is stored, outside the map is untouched. -/
lemma insertRegs_lookup (mem : ℕ → ℕ) (s a : ℕ) :
    ∀ (q j : ℕ) (out : RawMap),
    insertRegs s out j ((List.range q).map (fun idx => mem ((s + (j + idx)) % 65536))) a
      = if ∃ idx < q, (s + (j + idx)) % 65536 = a then some (mem a) else out a := by
  intro q
  induction q with
  | zero =>
    intro j out
    simp [insertRegs]
  | succ q ih =>
    intro j out
    rw [List.range_succ_eq_map]
    simp only [List.map_cons, List.map_map, insertRegs]
    have harg : ((fun idx => mem ((s + (j + idx)) % 65536)) ∘ Nat.succ)
        = (fun idx => mem ((s + (j + 1 + idx)) % 65536)) := by
      funext idx
      simp only [Function.comp_apply]
      congr 1
      omega
    rw [harg, ih (j + 1)]
    by_cases hhead : (s + j) % 65536 = a
    · by_cases htail : ∃ idx < q, (s + (j + 1 + idx)) % 65536 = a
      · rw [if_pos htail, if_pos]
        rcases htail with ⟨idx, hidx, hval⟩
        exact ⟨idx + 1, by omega, by rw [← hval]; congr 1; omega⟩
      · rw [if_neg htail, if_pos ⟨0, by omega, by simpa using hhead⟩]
        simp only [rawInsert, Nat.add_zero]
        rw [if_pos hhead.symm, hhead]
    · by_cases htail : ∃ idx < q, (s + (j + 1 + idx)) % 65536 = a
      · rw [if_pos htail, if_pos]
        rcases htail with ⟨idx, hidx, hval⟩
        exact ⟨idx + 1, by omega, by rw [← hval]; congr 1; omega⟩
      · rw [if_neg htail, if_neg]
        · simp only [rawInsert, Nat.add_zero]
          rw [if_neg (fun hc => hhead hc.symm)]
        · rintro ⟨idx, hidx, hval⟩
          rcases idx with _ | idx
          · exact hhead (by rw [← hval]; congr 1)
          · exact htail ⟨idx, by omega, by rw [← hval]; congr 1; omega⟩

lemma insertRegs_readVals (mem : ℕ → ℕ) (s q a : ℕ) (out : RawMap) :
    insertRegs s out 0 (readVals mem s q) a
      = if blockCovers (s, q) a then some (mem a) else out a := by
  have h := insertRegs_lookup mem s a q 0 out
  simp only [Nat.zero_add] at h
  rw [readVals]
  have harg : (fun idx => mem ((s + idx) % 65536))
      = (fun idx => mem ((s + (0 + idx)) % 65536)) := by
    funext idx
    congr 1
    omega
  rw [harg]
  rw [insertRegs_lookup mem s a q 0 out]
  unfold blockCovers
  congr 1
  · simp

/-- Characterization of a run against a per-block outcome pattern: the log
    records every block with its call count, the schedule is consumed
    exactly, and an address holds the device value iff some non-abandoned
    block covers it. -/
lemma processBlocks_char (mem : ℕ → ℕ) :
    ∀ (blocks : List (ℕ × ℕ)) (pat : List Outcome), pat.length = blocks.length →
    ∀ (out : RawMap) (log : BlockLog),
      (processBlocks mem blocks ⟨patReads pat, []⟩ out log).2.1
        = log ++ (blocks.zip pat).map (fun p => (p.1.1, p.1.2, outcomeCalls p.2))
      ∧ ∀ a, (processBlocks mem blocks ⟨patReads pat, []⟩ out log).1 a
          = if ∃ p ∈ blocks.zip pat, p.2 ≠ Outcome.failTwice ∧ blockCovers p.1 a
            then some (mem a) else out a := by
  intro blocks
  induction blocks with
  | nil =>
    intro pat hlen out log
    rw [List.length_nil, List.length_eq_zero] at hlen
    subst hlen
    refine ⟨by simp [processBlocks, patReads], fun a => ?_⟩
    simp [processBlocks, patReads]
  | cons b rest ih =>
    intro pat hlen out log
    rcases pat with _ | ⟨o, pat⟩
    · exact absurd hlen (by simp)
    · rcases b with ⟨s, q⟩
      have hreads : patReads (o :: pat) = outcomeReads o ++ patReads pat := by
        simp [patReads]
      rw [hreads]
      have hlen2 : pat.length = rest.length := by simpa using hlen
      cases o with
      | failTwice =>
        have hab := attemptBlock_outcome mem s q Outcome.failTwice (patReads pat)
        rw [if_pos rfl] at hab
        rw [processBlocks, hab]
        dsimp only [outcomeCalls]
        obtain ⟨hlog, hout⟩ := ih pat hlen2 out (log ++ [(s, q, 2)])
        refine ⟨by rw [hlog]; simp [outcomeCalls], fun a => ?_⟩
        rw [hout a]
        congr 1
        simp only [List.zip_cons_cons, List.mem_cons, eq_iff_iff]
        constructor
        · intro h
          exact ⟨_, Or.inr h.choose_spec.1, h.choose_spec.2⟩
        · rintro ⟨p, hp | hp, hcond⟩
          · rw [hp] at hcond
            exact absurd rfl hcond.1
          · exact ⟨p, hp, hcond⟩
      | succeed =>
        have hab := attemptBlock_outcome mem s q Outcome.succeed (patReads pat)
        rw [if_neg (by decide)] at hab
        rw [processBlocks, hab]
        dsimp only [outcomeCalls]
        obtain ⟨hlog, hout⟩ :=
          ih pat hlen2 (insertRegs s out 0 (readVals mem s q)) (log ++ [(s, q, 1)])
        refine ⟨by rw [hlog]; simp [outcomeCalls], fun a => ?_⟩
        rw [hout a, insertRegs_readVals]
        by_cases hrest : ∃ p ∈ rest.zip pat, p.2 ≠ Outcome.failTwice ∧ blockCovers p.1 a
        · rw [if_pos hrest, if_pos]
          simp only [List.zip_cons_cons, List.mem_cons]
          rcases hrest with ⟨p, hp, hcond⟩
          exact ⟨p, Or.inr hp, hcond⟩
        · rw [if_neg hrest]
          by_cases hcov : blockCovers (s, q) a
          · rw [if_pos hcov, if_pos]
            simp only [List.zip_cons_cons, List.mem_cons]
            have hne2 : Outcome.succeed ≠ Outcome.failTwice := by decide
            exact ⟨((s, q), Outcome.succeed), Or.inl rfl, hne2, hcov⟩
          · rw [if_neg hcov, if_neg]
            simp only [List.zip_cons_cons, List.mem_cons]
            rintro ⟨p, hmem2, hne, hcv⟩
            rcases hmem2 with rfl | hmem2
            · exact hcov hcv
            · exact hrest ⟨p, hmem2, hne, hcv⟩
      | retryThenSucceed =>
        have hab := attemptBlock_outcome mem s q Outcome.retryThenSucceed (patReads pat)
        rw [if_neg (by decide)] at hab
        rw [processBlocks, hab]
        dsimp only [outcomeCalls]
        obtain ⟨hlog, hout⟩ :=
          ih pat hlen2 (insertRegs s out 0 (readVals mem s q)) (log ++ [(s, q, 2)])
        refine ⟨by rw [hlog]; simp [outcomeCalls], fun a => ?_⟩
        rw [hout a, insertRegs_readVals]
        by_cases hrest : ∃ p ∈ rest.zip pat, p.2 ≠ Outcome.failTwice ∧ blockCovers p.1 a
        · rw [if_pos hrest, if_pos]
          simp only [List.zip_cons_cons, List.mem_cons]
          rcases hrest with ⟨p, hp, hcond⟩
          exact ⟨p, Or.inr hp, hcond⟩
        · rw [if_neg hrest]
          by_cases hcov : blockCovers (s, q) a
          · rw [if_pos hcov, if_pos]
            simp only [List.zip_cons_cons, List.mem_cons]
            have hne2 : Outcome.retryThenSucceed ≠ Outcome.failTwice := by decide
            exact ⟨((s, q), Outcome.retryThenSucceed), Or.inl rfl, hne2, hcov⟩
          · rw [if_neg hcov, if_neg]
            simp only [List.zip_cons_cons, List.mem_cons]
            rintro ⟨p, hmem2, hne, hcv⟩
            rcases hmem2 with rfl | hmem2
            · exact hcov hcv
            · exact hrest ⟨p, hmem2, hne, hcv⟩

/-- Characterization of the uninterrupted run (empty failure schedule):
    every block succeeds with one read call. -/
lemma processBlocks_nil_char (mem : ℕ → ℕ) :
    ∀ (blocks : List (ℕ × ℕ)) (out : RawMap) (log : BlockLog),
      (processBlocks mem blocks ⟨[], []⟩ out log).2.1
        = log ++ blocks.map (fun b => (b.1, b.2, 1))
      ∧ ∀ a, (processBlocks mem blocks ⟨[], []⟩ out log).1 a
          = if ∃ b ∈ blocks, blockCovers b a then some (mem a) else out a := by
  intro blocks
  induction blocks with
  | nil =>
    intro out log
    exact ⟨by simp [processBlocks], fun a => by simp [processBlocks]⟩
  | cons b rest ih =>
    intro out log
    rcases b with ⟨s, q⟩
    rw [processBlocks, attemptBlock_nil]
    obtain ⟨hlog, hout⟩ := ih (insertRegs s out 0 (readVals mem s q)) (log ++ [(s, q, 1)])
    refine ⟨by rw [hlog]; simp, fun a => ?_⟩
    rw [hout a, insertRegs_readVals]
    by_cases hrest : ∃ b ∈ rest, blockCovers b a
    · rw [if_pos hrest, if_pos]
      rcases hrest with ⟨b, hb, hcv⟩
      exact ⟨b, List.mem_cons_of_mem _ hb, hcv⟩
    · rw [if_neg hrest]
      by_cases hcov : blockCovers (s, q) a
      · rw [if_pos hcov, if_pos ⟨(s, q), List.mem_cons_self _ _, hcov⟩]
      · rw [if_neg hcov, if_neg]
        rintro ⟨b, hb, hcv⟩
        rcases List.mem_cons.mp hb with rfl | hb
        · exact hcov hcv
        · exact hrest ⟨b, hb, hcv⟩

lemma processBlocks_calls (mem : ℕ → ℕ) :
    ∀ (blocks : List (ℕ × ℕ)) (st : ConnState) (out : RawMap) (log : BlockLog),
    (∀ t ∈ log, t.2.2 ≤ 2) →
    ∀ t ∈ (processBlocks mem blocks st out log).2.1, t.2.2 ≤ 2 := by
  intro blocks
  induction blocks with
  | nil => intro st out log hlog t ht; exact hlog t ht
  | cons b rest ih =>
    intro st out log hlog
    rcases b with ⟨s, q⟩
    rw [processBlocks]
    rcases hab : attemptBlock mem st s q with ⟨st2, res, calls⟩
    have hcalls : calls ≤ 2 := by
      have h2 := attemptBlock_calls mem st s q
      rw [hab] at h2
      exact h2
    have hlog2 : ∀ t ∈ log ++ [(s, q, calls)], t.2.2 ≤ 2 := by
      intro t ht
      rcases List.mem_append.mp ht with h | h
      · exact hlog t h
      · rw [List.mem_singleton] at h
        subst h
        exact hcalls
    cases res with
    | none => exact ih st2 out _ hlog2
    | some regs => exact ih st2 _ _ hlog2

/-! ## C4 — retry-once per block -/

/-- C4: against any per-block failure pattern, the reader issues exactly the
    same block sequence as an uninterrupted run and never reads a block more
    than twice; an address receives the device value iff some covering block
    was not abandoned, so a block that fails once and succeeds on its single
    retry contributes the same entries as an uninterrupted read, while a
    block failing twice contributes nothing and never aborts the remaining
    blocks or ranges. -/
theorem C4_retry_once (mem : ℕ → ℕ) (ranges : List (ℕ × ℕ)) (B : ℕ)
    (pat : List Outcome) (hlen : pat.length = (rangesBlocks ranges B).length) :
    ((collectRanges mem ⟨patReads pat, []⟩ ranges B).2.1.map (fun t => (t.1, t.2.1))
        = rangesBlocks ranges B)
    ∧ ((collectRanges mem ⟨[], []⟩ ranges B).2.1.map (fun t => (t.1, t.2.1))
        = rangesBlocks ranges B)
    ∧ (∀ (st : ConnState) (t : ℕ × ℕ × ℕ),
        t ∈ (collectRanges mem st ranges B).2.1 → t.2.2 ≤ 2)
    ∧ (∀ a, (collectRanges mem ⟨patReads pat, []⟩ ranges B).1 a
        = if ∃ p ∈ (rangesBlocks ranges B).zip pat,
              p.2 ≠ Outcome.failTwice ∧ blockCovers p.1 a
          then some (mem a) else none)
    ∧ (Outcome.failTwice ∉ pat →
        ∀ a, (collectRanges mem ⟨patReads pat, []⟩ ranges B).1 a
          = (collectRanges mem ⟨[], []⟩ ranges B).1 a)
    ∧ (∀ a, (∀ p ∈ (rangesBlocks ranges B).zip pat,
          blockCovers p.1 a → p.2 = Outcome.failTwice) →
        (collectRanges mem ⟨patReads pat, []⟩ ranges B).1 a = none) := by
  have hc := processBlocks_char mem (rangesBlocks ranges B) pat hlen emptyRaw []
  have hn := processBlocks_nil_char mem (rangesBlocks ranges B) emptyRaw []
  refine ⟨?_, ?_, ?_, ?_, ?_, ?_⟩
  · rw [collectRanges_process, hc.1]
    simp only [List.nil_append, List.map_map]
    have hcomp : ((fun t : ℕ × ℕ × ℕ => (t.1, t.2.1))
        ∘ (fun p : (ℕ × ℕ) × Outcome => (p.1.1, p.1.2, outcomeCalls p.2)))
        = Prod.fst := by
      funext p
      simp
    rw [hcomp]
    exact List.map_fst_zip _ _ (le_of_eq hlen.symm)
  · rw [collectRanges_process, hn.1]
    simp only [List.nil_append, List.map_map]
    have hcomp : ((fun t : ℕ × ℕ × ℕ => (t.1, t.2.1))
        ∘ (fun b : ℕ × ℕ => (b.1, b.2, 1))) = id := by
      funext b
      simp
    rw [hcomp, List.map_id]
  · intro st t ht
    rw [collectRanges_process] at ht
    exact processBlocks_calls mem _ st emptyRaw [] (by simp) t ht
  · intro a
    rw [collectRanges_process]
    simpa [emptyRaw] using hc.2 a
  · intro hft a
    rw [collectRanges_process, collectRanges_process, hc.2 a, hn.2 a]
    have hiff : (∃ p ∈ (rangesBlocks ranges B).zip pat,
          p.2 ≠ Outcome.failTwice ∧ blockCovers p.1 a)
        ↔ (∃ b ∈ rangesBlocks ranges B, blockCovers b a) := by
      constructor
      · rintro ⟨p, hp, _, hcov⟩
        exact ⟨p.1, (List.of_mem_zip hp).1, hcov⟩
      · rintro ⟨b, hb, hcov⟩
        rcases List.mem_iff_getElem.mp hb with ⟨n, hbound, hget⟩
        have hnz : n < ((rangesBlocks ranges B).zip pat).length := by
          rw [List.length_zip]
          omega
        refine ⟨((rangesBlocks ranges B).zip pat)[n], List.getElem_mem hnz, ?_, ?_⟩
        · rw [List.getElem_zip]
          intro hcontra
          exact hft (hcontra ▸ List.getElem_mem (by omega))
        · rw [List.getElem_zip]
          simpa [hget] using hcov
    rw [if_congr hiff rfl rfl]
  · intro a hall
    rw [collectRanges_process, hc.2 a, if_neg]
    · rfl
    · rintro ⟨p, hp, hne, hcov⟩
      exact hne (hall p hp hcov)

/-- C4 witness: range `[0,5]` in blocks of 2 with the middle block failing
    twice — its addresses are absent, the neighbouring blocks' addresses
    carry the device values. -/
theorem C4_witness :
    (collectRanges (fun a => a)
        ⟨patReads [Outcome.succeed, Outcome.failTwice, Outcome.succeed], []⟩
        [(0, 5)] 2).1 3 = none
    ∧ (collectRanges (fun a => a)
        ⟨patReads [Outcome.succeed, Outcome.failTwice, Outcome.succeed], []⟩
        [(0, 5)] 2).1 1 = some 1 := by
  have h := C4_retry_once (fun a => a) [(0, 5)] 2
    [Outcome.succeed, Outcome.failTwice, Outcome.succeed] (by rfl)
  constructor
  · exact h.2.2.2.2.2 3 (by decide)
  · exact (h.2.2.2.1 1).trans (by decide)

/-! ## C5 — block splitting -/

lemma ceil_div_succ (M B : ℕ) (hB : 0 < B) (hM : 0 < M) :
    (M + B - 1) / B = (M - B + B - 1) / B + 1 := by
  rcases le_or_lt M B with h | h
  · rw [show M + B - 1 = (M - 1) + B by omega, Nat.add_div_right _ hB,
        Nat.div_eq_of_lt (by omega), show M - B + B - 1 = B - 1 by omega,
        Nat.div_eq_of_lt (by omega)]
  · rw [show M + B - 1 = (M - B + B - 1) + B by omega, Nat.add_div_right _ hB]

/-- In the overflow-free region the block loop issues the expected
    arithmetic sequence of `ceil` many blocks. -/
lemma blocksFrom_eq (start L B : ℕ) (hB : 0 < B) (hsL : start + L ≤ 65536)
    (hLB : L + B ≤ 65536) :
    ∀ (fuel i : ℕ), L - i ≤ fuel →
    blocksFrom start L B fuel i
      = (List.range ((L - i + B - 1) / B)).map
          (fun n => (start + i + n * B, min B (L - i - n * B))) := by
  intro fuel
  induction fuel with
  | zero =>
    intro i hfi
    have h0 : L - i = 0 := by omega
    simp [blocksFrom, h0, Nat.div_eq_of_lt (show B - 1 < B by omega)]
  | succ fuel ih =>
    intro i hfi
    rw [blocksFrom]
    by_cases h : i < L
    · rw [if_pos h]
      have hiB : (i + B) % 65536 = i + B := Nat.mod_eq_of_lt (by omega)
      have hsi : (start + i) % 65536 = start + i := Nat.mod_eq_of_lt (by omega)
      have hq : (if (i + B) % 65536 > L then L - i else B) = min B (L - i) := by
        rw [hiB]
        split_ifs with h2 <;> omega
      rw [ih ((i + B) % 65536) (by rw [hiB]; omega), hq, hsi, hiB]
      have hk : (L - i + B - 1) / B = (L - (i + B) + B - 1) / B + 1 := by
        have hcd := ceil_div_succ (L - i) B hB (by omega)
        rw [show L - i - B = L - (i + B) by omega] at hcd
        exact hcd
      rw [hk, List.range_succ_eq_map, List.map_cons, List.map_map]
      congr 1
      · simp
      · congr 1
        funext n
        simp only [Function.comp_apply, Nat.succ_eq_add_one, Nat.succ_mul]
        rw [Prod.mk.injEq]
        exact ⟨by omega, by omega⟩
    · rw [if_neg h]
      have h0 : L - i = 0 := by omega
      simp [h0, Nat.div_eq_of_lt (show B - 1 < B by omega)]

/-- C5 counterexample: for a range covering the whole address space
    (inclusive length 65536), `totalToRead` wraps to 0 and no block is ever
    issued, although `ceil(L/B)` is 2 for `B = 40000` — the claimed block
    count is wrong for this range. -/
theorem C5_counterexample :
    (collectRanges (fun _ => 0) ⟨[], []⟩ [(0, 65535)] 40000).2.1.length = 0
    ∧ (65536 + 40000 - 1) / 40000 = 2
    ∧ (0 : ℕ) ≠ 2 := by
  exact ⟨rfl, by norm_num, by norm_num⟩

/-- C5 amended: for a valid range `[s, e]` of inclusive length
    `L = e - s + 1` and `0 < B` with `L + B ≤ 65536` (no uint16 overflow in
    the loop arithmetic; without this bound the claim fails, see the
    counterexample), an uninterrupted read issues exactly `⌈L/B⌉` blocks:
    the n-th block starts at `s + n·B` with size `min B (L - n·B)`, so every
    block has size at most `B`, all blocks but the last have size exactly
    `B`, the last has size `L mod B` (or `B` when `B` divides `L`), and the
    blocks cover `[s, e]` consecutively. -/
theorem C5_block_splitting (mem : ℕ → ℕ) (s e B : ℕ)
    (hse : s ≤ e) (he : e ≤ 65535) (hB : 0 < B) (hLB : (e - s + 1) + B ≤ 65536) :
    ((collectRanges mem ⟨[], []⟩ [(s, e)] B).2.1
        = (List.range ((e - s + 1 + B - 1) / B)).map
            (fun n => (s + n * B, min B (e - s + 1 - n * B), 1)))
    ∧ ((collectRanges mem ⟨[], []⟩ [(s, e)] B).2.1.length = (e - s + 1 + B - 1) / B)
    ∧ (∀ t ∈ (collectRanges mem ⟨[], []⟩ [(s, e)] B).2.1, t.2.1 ≤ B)
    ∧ (∀ n, n + 1 < (e - s + 1 + B - 1) / B →
        ((collectRanges mem ⟨[], []⟩ [(s, e)] B).2.1[n]?).map (fun t => t.2.1)
          = some B)
    ∧ (((collectRanges mem ⟨[], []⟩ [(s, e)] B).2.1.getLast?).map (fun t => t.2.1)
        = some (if (e - s + 1) % B = 0 then B else (e - s + 1) % B)) := by
  have hrt : rangeTotal (s, e) = e - s + 1 := by
    unfold rangeTotal
    omega
  have hblocks : rangesBlocks [(s, e)] B
      = (List.range ((e - s + 1 + B - 1) / B)).map
          (fun n => (s + n * B, min B (e - s + 1 - n * B))) := by
    have hbf := blocksFrom_eq s (e - s + 1) B hB (by omega) hLB 65536 0 (by omega)
    simp only [rangesBlocks, List.map_cons, List.map_nil, List.flatten,
      List.append_nil, hrt]
    rw [hbf]
    simp
  have hnil := processBlocks_nil_char mem (rangesBlocks [(s, e)] B) emptyRaw []
  have hlog : (collectRanges mem ⟨[], []⟩ [(s, e)] B).2.1
      = (List.range ((e - s + 1 + B - 1) / B)).map
          (fun n => (s + n * B, min B (e - s + 1 - n * B), 1)) := by
    rw [collectRanges_process, hnil.1, hblocks]
    simp [List.map_map]
  -- ceiling bounds: L ≤ B·k and B·k ≤ L + B - 1 for k = ⌈L/B⌉
  have hdm := Nat.div_add_mod (e - s + 1 + B - 1) B
  have hmlt : (e - s + 1 + B - 1) % B < B := Nat.mod_lt _ hB
  have hkpos : 0 < (e - s + 1 + B - 1) / B := by
    rcases Nat.eq_zero_or_pos ((e - s + 1 + B - 1) / B) with h0 | h0
    · rw [h0] at hdm
      omega
    · exact h0
  refine ⟨hlog, ?_, ?_, ?_, ?_⟩
  · rw [hlog]
    simp
  · intro t ht
    rw [hlog] at ht
    rcases List.mem_map.mp ht with ⟨n, _, rfl⟩
    simp only []
    omega
  · intro n hn
    rw [hlog]
    have hnlt : n < (e - s + 1 + B - 1) / B := by omega
    simp only [List.getElem?_map, List.getElem?_range, hnlt, if_pos]
    show some (min B (e - s + 1 - n * B)) = some B
    have h1 : B * (n + 1) ≤ B * ((e - s + 1 + B - 1) / B - 1) :=
      Nat.mul_le_mul_left B (by omega)
    have h3 : B * (((e - s + 1 + B - 1) / B - 1) + 1) = B * ((e - s + 1 + B - 1) / B) := by
      rw [Nat.sub_add_cancel hkpos]
    rw [Nat.mul_add, Nat.mul_one] at h3
    rw [Nat.mul_add, Nat.mul_one] at h1
    rw [show n * B = B * n from Nat.mul_comm n B]
    congr 1
    omega
  · rw [hlog]
    obtain ⟨j, hj⟩ : ∃ j, (e - s + 1 + B - 1) / B = j + 1 :=
      ⟨(e - s + 1 + B - 1) / B - 1, by omega⟩
    rw [hj, List.range_succ, List.map_append]
    simp only [List.map_cons, List.map_nil]
    rw [List.getLast?_concat]
    have h1 : B * j + B = B * ((e - s + 1 + B - 1) / B) := by
      rw [hj, Nat.mul_add, Nat.mul_one]
    have hlow : B * j + 1 ≤ e - s + 1 := by omega
    have hhigh : e - s + 1 ≤ B * j + B := by omega
    have hmod : (e - s + 1) % B = (e - s + 1 - B * j) % B := by
      conv_lhs => rw [show e - s + 1 = B * j + (e - s + 1 - B * j) by omega]
      rw [Nat.mul_add_mod]
    show some (min B (e - s + 1 - j * B)) = _
    rw [Nat.mul_comm j B]
    rcases le_or_lt B (e - s + 1 - B * j) with ht | ht
    · rw [hmod, show e - s + 1 - B * j = B by omega, Nat.mod_self, if_pos rfl,
          min_self]
    · rw [hmod, Nat.mod_eq_of_lt ht, if_neg (by omega)]
      congr 1
      omega

/-- C5 witness: range `[0,5]` (length 6) with block size 2 issues exactly
    3 blocks, `(0,2) (2,2) (4,2)`. -/
theorem C5_witness :
    (collectRanges (fun _ => 0) ⟨[], []⟩ [(0, 5)] 2).2.1.length = 3
    ∧ (collectRanges (fun _ => 0) ⟨[], []⟩ [(0, 5)] 2).2.1
        = [(0, 2, 1), (2, 2, 1), (4, 2, 1)] := by
  have h := C5_block_splitting (fun _ => 0) 0 5 2
    (by norm_num) (by norm_num) (by norm_num) (by norm_num)
  exact ⟨h.2.1.trans (by norm_num), h.1.trans (by decide)⟩

/-! ## C10 — full-address-space range wraps to an empty read -/

/-- C10: startup validation accepts the range `(0, 65535)` when
    `maxAddr = 65535`, yet `totalToRead = (65535 - 0) + 1` wraps to 0 in
    uint16 arithmetic, so the reader issues no block reads for that range
    and contributes no entries to the output map. -/
theorem C10_full_range_wrap :
    validateRanges [(0, 65535)] 65535 = true
    ∧ rangeTotal (0, 65535) = 0
    ∧ ∀ (mem : ℕ → ℕ) (st : ConnState) (B : ℕ),
        (collectRanges mem st [(0, 65535)] B).2.1 = []
        ∧ ∀ a, (collectRanges mem st [(0, 65535)] B).1 a = none := by
  refine ⟨by decide, by norm_num [rangeTotal], ?_⟩
  intro mem st B
  exact ⟨rfl, fun a => rfl⟩

end Gofutura
